import Mathlib

/-!
Shallow embedding of the crawl-and-extract pipeline of this repository
(scraper/realtor_scraper.py and scraper/zillow_scraper.py) and proofs of the
claims about it.

Modelling conventions, used throughout:
* machine floats used only for sleep durations are modelled as rationals;
* the stdlib random.uniform(a, b) call of attempt i is modelled as
  a + (b - a) * u i for an abstract draw u i with 0 <= u i <= 1;
* stdlib boundaries (requests, json.loads, BeautifulSoup selectors, urljoin,
  the re engine applied to the fixed email pattern) are abstract parameters;
  concrete theorems instantiate them with functions whose behaviour on the
  inputs actually used matches the stdlib behaviour there;
* fallible Python code is embedded as total functions returning Option.
-/

namespace Scrape

/-! ### Python string helpers (operator in, str.strip, str.split, str.replace) -/

/-- Index of the first occurrence of pat inside l (Python str.find / operator in). -/
def strFindAt (pat : List Char) : List Char → Option Nat
  | [] => if pat.isEmpty then some 0 else none
  | c :: rest =>
    if pat.isPrefixOf (c :: rest) then some 0
    else (strFindAt pat rest).map (· + 1)

/-- Python substring test: pat in s. -/
def pyIn (pat s : String) : Bool := (strFindAt pat.data s.data).isSome

/-- Python s.split(sep)[0]: the part of s before the first occurrence of sep
(the whole string when sep does not occur). -/
def beforeFirst (sep s : String) : String :=
  match strFindAt sep.data s.data with
  | some i => ⟨s.data.take i⟩
  | none => s

/-- The part of s after the first occurrence of sep (empty when sep does not occur;
call sites guard for the occurrence). -/
def afterFirst (sep s : String) : String :=
  match strFindAt sep.data s.data with
  | some i => ⟨s.data.drop (i + sep.data.length)⟩
  | none => ""

/-- Index of the last occurrence of pat in l. -/
def strFindLastAt (pat : List Char) : List Char → Option Nat
  | [] => if pat.isEmpty then some 0 else none
  | c :: rest =>
    match (strFindLastAt pat rest).map (· + 1) with
    | some j => some j
    | none => if pat.isPrefixOf (c :: rest) then some 0 else none

/-- Python s.split(sep)[-1]: the part of s after the last occurrence of sep
(the whole string when sep does not occur). -/
def afterLast (sep s : String) : String :=
  match strFindLastAt sep.data s.data with
  | some i => ⟨s.data.drop (i + sep.data.length)⟩
  | none => s

/-- Python s.lower(), written over the character list so that it reduces in
the kernel. -/
def pyLower (s : String) : String := ⟨s.data.map Char.toLower⟩

/-- Python s.startswith(pre), written over the character lists. -/
def pyStartsWith (pre s : String) : Bool := pre.data.isPrefixOf s.data

/-- Whitespace for Python str.strip / str.split with no argument. -/
def pyWS (c : Char) : Bool := c.isWhitespace || c = '\x0b' || c = '\x0c'

/-- Python s.strip(). -/
def pyStrip (s : String) : String :=
  ⟨((s.data.dropWhile pyWS).reverse.dropWhile pyWS).reverse⟩

/-- Python s.rstrip with a single strip character. -/
def pyRstrip (strip : Char) (s : String) : String :=
  ⟨(s.data.reverse.dropWhile (· = strip)).reverse⟩

/-- Core of Python s.replace(pat, empty string); fuel is the length of the
remaining text, which every step consumes at least one character of. -/
def removeAllCore (pat : List Char) : Nat → List Char → List Char
  | 0, l => l
  | _ + 1, [] => []
  | fuel + 1, c :: rest =>
    if !pat.isEmpty && pat.isPrefixOf (c :: rest) then
      removeAllCore pat fuel ((c :: rest).drop pat.length)
    else c :: removeAllCore pat fuel rest

/-- Python s.replace(pat, empty string): delete every occurrence of pat. -/
def removeAll (pat s : String) : String :=
  ⟨removeAllCore pat.data s.data.length s.data⟩

/-! ### Embedding of the fetcher: fetch_with_retries (realtor_scraper.py lines 79-146) -/

/-- Retry-After header value as classified by the code: float(ra) succeeds (num)
or raises (nonNum). An absent or empty header is modelled as Option none, since
the code treats both through the same falsy test. -/
inductive RAHeader where
  | num (q : ℚ)
  | nonNum
deriving DecidableEq

/-- The pieces of a requests Response that fetch_with_retries inspects. -/
structure HResp where
  status : Nat
  retryAfter : Option RAHeader
deriving DecidableEq

/-- Outcome of one session.get call: a raised requests.RequestException, or a response. -/
inductive AttemptOutcome where
  | exc
  | ok (r : HResp)

/-- What one call of fetch_with_retries did: the returned value, the number of
loop iterations that ran, and the sleep durations in order. -/
structure FetchTrace where
  result : Option HResp
  attempts : Nat
  waits : List ℚ
deriving DecidableEq

/-- Loop body of fetch_with_retries. respOf i is the outcome of attempt i
(1-based), u i the standard-uniform draw consumed by the sleep of attempt i,
base the backoff_base argument. rem is the number of loop iterations the range
still allows; at the top call rem = maxRetries and attempt = 1. The jitter
calls of the source are uniform(0.5, 2.0) after a network exception,
uniform(1.0, 3.0) for a 429 with a non-numeric Retry-After, uniform(1.0, 4.0)
for a 429 without one, and uniform(0.5, 2.5) before a 5xx retry. -/
def fetchLoopAux (respOf : Nat → AttemptOutcome) (u : Nat → ℚ) (base : ℚ)
    (maxRetries : Nat) : Nat → Nat → FetchTrace
  | 0, _ => ⟨none, 0, []⟩
  | rem + 1, attempt =>
    match respOf attempt with
    | .exc =>
      let w := base * 2 ^ (attempt - 1) + (1/2 + (3/2) * u attempt)
      let t := fetchLoopAux respOf u base maxRetries rem (attempt + 1)
      ⟨t.result, t.attempts + 1, w :: t.waits⟩
    | .ok r =>
      if r.status = 200 then ⟨some r, 1, []⟩
      else if r.status = 429 then
        let w :=
          match r.retryAfter with
          | some (.num q) => q
          | some .nonNum => base * 2 ^ (attempt - 1) + (1 + 2 * u attempt)
          | none => base * 2 ^ (attempt - 1) + (1 + 3 * u attempt)
        let t := fetchLoopAux respOf u base maxRetries rem (attempt + 1)
        ⟨t.result, t.attempts + 1, w :: t.waits⟩
      else if 500 ≤ r.status ∧ r.status < 600 ∧ attempt < maxRetries then
        let w := base * 2 ^ (attempt - 1) + (1/2 + 2 * u attempt)
        let t := fetchLoopAux respOf u base maxRetries rem (attempt + 1)
        ⟨t.result, t.attempts + 1, w :: t.waits⟩
      else ⟨some r, 1, []⟩

/-- fetch_with_retries: the attempt loop ranges over attempts 1..maxRetries and
returns None when it falls off the end. -/
def fetchWithRetries (respOf : Nat → AttemptOutcome) (u : Nat → ℚ) (base : ℚ)
    (maxRetries : Nat) : FetchTrace :=
  fetchLoopAux respOf u base maxRetries maxRetries 1

/-! ### JSON values (results of the stdlib json.loads boundary) -/

/-- A decoded JSON value. json.loads itself is an abstract parameter
(parse : String → Option RJson); this type is its result shape. -/
inductive RJson where
  | null
  | bool (b : Bool)
  | num (q : ℚ)
  | str (s : String)
  | arr (elems : List RJson)
  | obj (fields : List (String × RJson))

/-- Python truthiness of a decoded JSON value. -/
def RJson.truthy : RJson → Bool
  | .null => false
  | .bool b => b
  | .num q => decide (q ≠ 0)
  | .str s => decide (s ≠ "")
  | .arr l => !l.isEmpty
  | .obj l => !l.isEmpty

/-- Python str() applied to a decoded JSON value. Only the string case is ever
reached under the well-typedness that the concrete pages of this file satisfy;
for other shapes the rendering is a placeholder (in the source a non-string
value in a str() position feeds a substring test whose outcome the claims never
exercise). -/
def RJson.pyStr : RJson → String
  | .str s => s
  | .num q => toString q
  | .bool b => if b then "True" else "False"
  | .null => "None"
  | .arr _ => "[...]"
  | .obj _ => "\x7b...\x7d"

/-- Python dict truthiness and .get navigation over optional JSON values
(None is Option.none). -/
def jsonTruthyO : Option RJson → Bool
  | some j => j.truthy
  | none => false

/-- Python x or y over optional JSON values. -/
def pyOrO (a b : Option RJson) : Option RJson := if jsonTruthyO a then a else b

/-- Python x.get(k) where x is an optional JSON value assumed to be a dict at
the guarded call sites (a non-dict here raises in the source; the per-strategy
try/except that would catch it is modelled as skipping the entry). -/
def oget (j : Option RJson) (k : String) : Option RJson :=
  match j with
  | some (.obj fs) => fs.lookup k
  | _ => none

/-- Python x.get(k, d) with an explicit default. -/
def ogetD (j : Option RJson) (k : String) (d : RJson) : RJson :=
  match j with
  | some (.obj fs) => (fs.lookup k).getD d
  | _ => d

/-- Python isinstance(x, dict) on an optional JSON value. -/
def isObjO : Option RJson → Bool
  | some (.obj _) => true
  | _ => false

/-- Python k in x for a JSON dict. -/
def jsonHasKey (j : RJson) (k : String) : Bool :=
  match j with
  | .obj fs => (fs.lookup k).isSome
  | _ => false

/-- str() of an optional JSON value (str(None) is the string None). -/
def jsonPyStrO : Option RJson → String
  | some j => j.pyStr
  | none => "None"

/-! ### Extraction records as Python dicts (realtor_scraper.py result dict) -/

/-- The result dict of the realtor extractor: insertion-ordered keys, values being
decoded JSON values or None. setdefault can and does store None. -/
abbrev RRecord := List (String × Option RJson)

/-- Python result.setdefault(k, v): inserts k -> v only when the key is absent
(a stored None still counts as present). -/
def setdefault (r : RRecord) (k : String) (v : Option RJson) : RRecord :=
  if (r.lookup k).isSome then r else r ++ [(k, v)]

/-- Python k in result. -/
def hasKey (r : RRecord) (k : String) : Bool := (r.lookup k).isSome

/-! ### JSON-LD block extraction: extract_json_ld of both scrapers -/

/-- Core of the split on the regex closing-brace, whitespace, opening-brace
used by the realtor salvage path (re.split of the pattern right-brace
whitespace-star left-brace). cur holds the current part reversed; fuel is the
remaining text length, consumed at least one character per step. -/
def splitConcatCore : Nat → List Char → List Char → List (List Char)
  | 0, cur, l => [cur.reverse ++ l]
  | _ + 1, cur, [] => [cur.reverse]
  | fuel + 1, cur, c :: rest =>
    if c = '}' then
      match rest.dropWhile pyWS with
      | '{' :: rest2 => cur.reverse :: splitConcatCore fuel [] rest2
      | _ => splitConcatCore fuel (c :: cur) rest
    else splitConcatCore fuel (c :: cur) rest

/-- re.split of the concatenated-objects delimiter on a block text. -/
def splitConcat (s : String) : List String :=
  (splitConcatCore s.data.length [] s.data).map fun l => ⟨l⟩

/-- The brace re-adding of the realtor salvage loop: first part gets a closing
brace, last part an opening brace, middle parts both. -/
def rebrace (parts : List String) : List String :=
  parts.mapIdx fun i p =>
    if i = 0 then p ++ "\x7d"
    else if i = parts.length - 1 then "\x7b" ++ p
    else "\x7b" ++ p ++ "\x7d"

/-- json.loads result flattening: a decoded list extends the output, anything
else is appended (realtor extract_json_ld). -/
def jsonFlat : RJson → List RJson
  | .arr xs => xs
  | j => [j]

/-- Per-block processing of realtor extract_json_ld (lines 149-189): strip,
skip empty, drop CDATA wrappers, parse; on failure split concatenated objects,
re-add braces and parse the parts individually, skipping the ones that still
fail. -/
def realtorProcessBlock (parse : String → Option RJson) (raw : String) : List RJson :=
  let txt := pyStrip raw
  if txt = "" then []
  else
    let txt := pyStrip (removeAll "/*]]>*/" (removeAll "/*<![CDATA[*/" txt))
    match parse txt with
    | some j => jsonFlat j
    | none =>
      let parts := splitConcat txt
      if 1 < parts.length then
        (rebrace parts).flatMap fun s =>
          match parse s with
          | some j => jsonFlat j
          | none => []
      else []

/-- realtor extract_json_ld: fold the per-block processing over all matched
script blocks, accumulating into one output list. -/
def realtorExtractJsonLd (parse : String → Option RJson) (blocks : List String) : List RJson :=
  blocks.foldl (fun out raw => out ++ realtorProcessBlock parse raw) []

/-- Per-block processing of zillow extract_json_ld (lines 138-157): strip,
drop CDATA wrappers, parse; extend on a decoded list, append on a decoded
dict, drop anything else; a failed parse skips just this block. There is no
split-and-reparse here. -/
def zillowProcessBlock (parse : String → Option RJson) (raw : String) : List RJson :=
  let clean := pyStrip raw
  let clean := removeAll "/*]]>*/" (removeAll "/*<![CDATA[*/" clean)
  match parse clean with
  | some (.arr xs) => xs
  | some (.obj fs) => [.obj fs]
  | _ => []

/-- zillow extract_json_ld: fold the per-block processing over all blocks. -/
def zillowExtractJsonLd (parse : String → Option RJson) (blocks : List String) : List RJson :=
  blocks.foldl (fun out raw => out ++ zillowProcessBlock parse raw) []

/-! ### Block detection (realtor_scraper.py lines 218-225 and 314-319) -/

/-- Anti-bot check on a search page: lower the html and test the four keywords
captcha, verify you are human, access denied, distil, in that order. -/
def blockedSearch (html : String) : Bool :=
  let lower := pyLower html
  pyIn "captcha" lower || pyIn "verify you are human" lower ||
    pyIn "access denied" lower || pyIn "distil" lower

/-- Anti-bot check on a listing page: only captcha, verify you are human and
access denied are tested there. -/
def blockedListing (html : String) : Bool :=
  let lower := pyLower html
  pyIn "captcha" lower || pyIn "verify you are human" lower || pyIn "access denied" lower

/-! ### URL discovery: realtor collect_listing_urls_from_search (lines 195-288) -/

/-- A fetched realtor search page, at the parsing boundary: the raw html text,
the JSON-LD script block texts the regex finds in it, and the href attributes
of all anchors in document order (BeautifulSoup find_all with href). -/
structure RSearchPage where
  text : String
  blocks : List String
  anchors : List String

/-- The listing-url pattern test of strategy 1 on an optional JSON value:
truthy and, as a string, containing the detail-path marker. -/
def rcUrlOk (v : Option RJson) : Option String :=
  match v with
  | some (.str u) => if u ≠ "" ∧ pyIn "/realestateandhomes-detail/" u then some u else none
  | _ => none

/-- url = it.get(url) or (it.get(item) or empty dict).get(url) for an ItemList
element. -/
def rcItemUrl (it : RJson) : Option RJson :=
  pyOrO (oget (some it) "url") (oget (pyOrO (oget (some it) "item") (some (.obj []))) "url")

/-- Python items iteration source: obj.get(itemListElement) or empty list,
taken as a list (a non-list value here raises in the source and is modelled as
the empty iteration). -/
def rcItems (obj : RJson) : List RJson :=
  match pyOrO (oget (some obj) "itemListElement") (some (.arr [])) with
  | some (.arr xs) => xs
  | _ => []

/-- t.lower() membership in the singleton tuple itemlist; t is a string at the
well-typed inputs, anything else is modelled as a failed test. -/
def rcIsItemList (t : Option RJson) : Bool :=
  match t with
  | some (.str s) => pyLower s = "itemlist"
  | _ => false

/-- Candidate stream of strategy 1 (JSON-LD), in source iteration order:
per dict object, first the qualifying ItemList element urls, then the
own qualifying url of the object, each joined against the seed (join is
urljoin(search_url, ·), a stdlib boundary). -/
def rcS1urls (join : String → String) (objs : List RJson) : List String :=
  objs.flatMap fun obj =>
    match obj with
    | .obj _ =>
      let t := pyOrO (oget (some obj) "@type") (oget (some obj) "type")
      let itemUrls :=
        if jsonTruthyO t ∧ rcIsItemList t then
          (rcItems obj).filterMap fun it =>
            match it with
            | .obj _ => (rcUrlOk (rcItemUrl it)).map join
            | _ => none
        else []
      let direct := (rcUrlOk (oget (some obj) "url")).map join
      itemUrls ++ direct.toList
    | _ => []

/-- Candidate stream of strategy 2 (anchor scan): stripped hrefs containing the
detail-path marker, joined. -/
def rcS2urls (join : String → String) (anchors : List String) : List String :=
  anchors.filterMap fun a =>
    let href := pyStrip a
    if pyIn "/realestateandhomes-detail/" href then some (join href) else none

/-- Candidate stream of strategy 3 (loose anchor scan): stripped hrefs
containing detail and one of the two known path markers, joined. -/
def rcS3urls (join : String → String) (anchors : List String) : List String :=
  anchors.filterMap fun a =>
    let href := pyStrip a
    if pyIn "detail" href ∧ (pyIn "realestateandhomes-detail" href ∨ pyIn "/home-details/" href)
    then some (join href) else none

/-- One membership-checked append of the collector: add u unless present, and
report whether the append just reached the limit (the check of the source
sits inside the not-in branch, so only a real append can trigger it). -/
def rcAdd (limit : Nat) (found : List String) (u : String) : List String × Bool :=
  if found.contains u then (found, false)
  else
    let f := found ++ [u]
    (f, limit ≤ f.length)

/-- Fold a candidate stream through rcAdd, stopping early the moment an append
reaches the limit; the Bool reports that early stop. -/
def rcAddList (limit : Nat) (found : List String) : List String → List String × Bool
  | [] => (found, false)
  | u :: rest =>
    let p := rcAdd limit found u
    if p.2 then (p.1, true) else rcAddList limit p.1 rest

/-- collect_listing_urls_from_search after the fetch and status checks: block
check, then strategies 1-3 with their early returns, then the final slice.
Strategy 1 returns found unsliced on hitting the limit; strategy 2 breaks and
falls to the strategy 3 gate; the final return slices to limit. -/
def realtorCollectFromHtml (parse : String → Option RJson) (join : String → String)
    (page : RSearchPage) (limit : Nat) : List String :=
  if blockedSearch page.text then []
  else
    let objs := realtorExtractJsonLd parse page.blocks
    let p1 := rcAddList limit [] (rcS1urls join objs)
    if p1.2 then p1.1
    else
      let f2 := (rcAddList limit p1.1 (rcS2urls join page.anchors)).1
      let f3 := if f2.length < limit then (rcAddList limit f2 (rcS3urls join page.anchors)).1 else f2
      f3.take limit

/-- collect_listing_urls_from_search including the fetch boundary: None from
fetch_with_retries yields no candidates, as does a non-200 status. -/
def realtorCollectTop (fetched : Option (Nat × RSearchPage)) (parse : String → Option RJson)
    (join : String → String) (limit : Nat) : List String :=
  match fetched with
  | none => []
  | some (s, page) => if s ≠ 200 then [] else realtorCollectFromHtml parse join page limit

/-- First-occurrence deduplication of a stream into an accumulator (the
membership-checked append pattern shared by the collectors and run_scrape). -/
def dedupInto (found : List String) (us : List String) : List String :=
  us.foldl (fun acc u => if acc.contains u then acc else acc ++ [u]) found

/-- First-occurrence deduplication of a whole stream. -/
def dedupFO (us : List String) : List String := dedupInto [] us

/-- The canonicalization zillow applies before inserting into its found set:
u.split on the question mark, first part, then rstrip of slashes
(zillow_scraper.py lines 223, 231, 268, 298, 322, 339). -/
def zCanon (u : String) : String := pyRstrip '/' (beforeFirst "?" u)

/-- Membership of the found set of the zillow collector after inserting a stream of
raw candidate urls: every insertion canonicalizes first. Iteration order of the
Python set is not modelled; this list carries the membership only. -/
def zillowFoundOf (cands : List String) : List String := dedupFO (cands.map zCanon)

/-! ### Record extraction: realtor extract_listing_data (lines 294-403) -/

/-- A fetched realtor listing page at the parsing boundary: raw html, JSON-LD
block texts, the soup selector results (select_one followed by stripped
get_text; none when no element matches), the href of the first tel anchor, and
the whole-page text blob soup.get_text with spaces. -/
structure RPage where
  text : String
  blocks : List String
  sel : String → Option String
  telHref : Option String
  textBlob : String

/-- isinstance(x, (int, float, str)) on an optional JSON value (Python bools
are ints). -/
def isNumOrStrO : Option RJson → Bool
  | some (.num _) => true
  | some (.str _) => true
  | some (.bool _) => true
  | _ => false

/-- setdefault guarded by a condition: the if x: result.setdefault(k, v)
pattern of the structured-data pass. -/
def sdIf (b : Bool) (k : String) (v : Option RJson) (r : RRecord) : RRecord :=
  if b then setdefault r k v else r

/-- The address part of the residence branch (lines 332-341): guarded
setdefaults for streetAddress, locality, region, postal code, in source
order (innermost application first). -/
def rjsResidenceAddr (obj : RJson) (r : RRecord) : RRecord :=
  let addr := pyOrO (oget (some obj) "address") (some (.obj []))
  if isObjO addr then
    sdIf (jsonTruthyO (oget addr "postalCode")) "postal_code" (oget addr "postalCode")
      (sdIf (jsonTruthyO (oget addr "addressRegion")) "region" (oget addr "addressRegion")
        (sdIf (jsonTruthyO (oget addr "addressLocality")) "city" (oget addr "addressLocality")
          (sdIf (jsonTruthyO (oget addr "streetAddress")) "address" (oget addr "streetAddress") r)))
  else r

/-- The price part of the residence branch (lines 342-349): offers as a dict
gives the offers-derived price, a truthy non-dict offers falls to the
own price field of the object. -/
def rjsResidencePrice (obj : RJson) (r : RRecord) : RRecord :=
  let offers := pyOrO (oget (some obj) "offers") (some (.obj []))
  if isObjO offers then
    let price := pyOrO (oget offers "price") (oget (some (ogetD offers "priceSpecification" (.obj []))) "price")
    sdIf (jsonTruthyO price) "price" price r
  else
    sdIf (jsonTruthyO (oget (some obj) "price")) "price" (oget (some obj) "price") r

/-- The residence branch of the realtor structured-data pass (lines 331-349).
t is the resolved type value of the object, ts its lowered str() form. -/
def rjsResidence (obj : RJson) (t : Option RJson) (ts : String) (r : RRecord) : RRecord :=
  if jsonTruthyO t ∧ (pyIn "residence" ts ∨ pyIn "singlefamily" ts ∨ pyIn "house" ts ∨ pyIn "apartment" ts) then
    rjsResidencePrice obj (rjsResidenceAddr obj r)
  else r

/-- The agent branch of the realtor structured-data pass (lines 351-357):
unguarded setdefaults, which insert the key even when the looked-up value is
None, plus the affiliation-derived brokerage. -/
def rjsAgent (obj : RJson) (t : Option RJson) (ts : String) (r : RRecord) : RRecord :=
  if jsonTruthyO t ∧ pyIn "realestateagent" ts then
    let aff := pyOrO (oget (some obj) "affiliation") (some (.obj []))
    sdIf (isObjO aff) "brokerage" (oget aff "name")
      (setdefault
        (setdefault
          (setdefault r "agent_name" (oget (some obj) "name"))
          "agent_telephone" (oget (some obj) "telephone"))
        "agent_email" (oget (some obj) "email"))
  else r

/-- The offer branch of the realtor structured-data pass (lines 359-361). -/
def rjsOffer (obj : RJson) (t : Option RJson) (ts : String) (r : RRecord) : RRecord :=
  if jsonTruthyO t ∧ pyIn "offer" ts then
    sdIf (isNumOrStrO (oget (some obj) "price")) "price" (oget (some obj) "price") r
  else r

/-- One JSON-LD object of the realtor structured-data pass
(lines 326-361): skip non-dicts, resolve the type, then the residence, agent
and offer branches in source order. -/
def realtorJsonStep (r : RRecord) (obj : RJson) : RRecord :=
  match obj with
  | .obj _ =>
    let t := pyOrO (oget (some obj) "@type") (oget (some obj) "type")
    let ts := pyLower (jsonPyStrO t)
    rjsOffer obj t ts (rjsAgent obj t ts (rjsResidence obj t ts r))
  | _ => r

/-- The whole structured-data pass: fold over the decoded JSON-LD objects. -/
def realtorJsonPass (objs : List RJson) (r : RRecord) : RRecord :=
  objs.foldl realtorJsonStep r

/-- First selector of an ordered list whose element exists and has non-empty
text (the per-field DOM fallback loop shared by both extractors). -/
def firstNonEmptySel (sel : String → Option String) : List String → Option String
  | [] => none
  | s :: rest =>
    match sel s with
    | some t => if t ≠ "" then some t else firstNonEmptySel sel rest
    | none => firstNonEmptySel sel rest

/-- The selector lists of the realtor DOM fallback. -/
def rAddressSels : List String := ["h1", ".address", ".ldp-address", ".listing-street-address"]

/-- The realtor price selector list. -/
def rPriceSels : List String := [".price", ".rui__k8o6b6-0", ".ldp-price", ".listing-price"]

/-- The combined agent-name selector of the realtor DOM fallback. -/
def rAgentNameSel : String := ".listing-agent-name, .agent-name, .broker-name"

/-- DOM fallback for the address field (lines 369-374): only when the key is
absent, first selector of the ordered list yielding non-empty text. -/
def rDomAddrStep (page : RPage) (r : RRecord) : RRecord :=
  if hasKey r "address" then r else
    match firstNonEmptySel page.sel rAddressSels with
    | some t => r ++ [("address", some (.str t))]
    | none => r

/-- DOM fallback for the price field (lines 375-380). -/
def rDomPriceStep (page : RPage) (r : RRecord) : RRecord :=
  if hasKey r "price" then r else
    match firstNonEmptySel page.sel rPriceSels with
    | some t => r ++ [("price", some (.str t))]
    | none => r

/-- DOM fallback for the agent name (lines 381-384): one combined selector. -/
def rDomNameStep (page : RPage) (r : RRecord) : RRecord :=
  if hasKey r "agent_name" then r else
    match page.sel rAgentNameSel with
    | some t => if t ≠ "" then r ++ [("agent_name", some (.str t))] else r
    | none => r

/-- DOM fallback for the telephone (lines 385-388): from the href of the first
href after the last tel: marker, before any question mark. -/
def rDomTelStep (page : RPage) (r : RRecord) : RRecord :=
  if hasKey r "agent_telephone" then r else
    match page.telHref with
    | some h =>
      if h ≠ "" then r ++ [("agent_telephone", some (.str (beforeFirst "?" (afterLast "tel:" h))))] else r
    | none => r

/-- DOM fallback for the email (lines 389-394): a regex scan of the text blob
guarded by an at-sign test. emailRe abstracts re.search with the fixed email
pattern. -/
def rDomEmailStep (page : RPage) (emailRe : String → Option String) (r : RRecord) : RRecord :=
  if hasKey r "agent_email" then r else
    if pyIn "@" page.textBlob then
      match emailRe page.textBlob with
      | some m => r ++ [("agent_email", some (.str m))]
      | none => r
    else r

/-- The DOM fallback pass of the realtor extractor (lines 367-397): address,
price, agent name, telephone, email, in source order, each only when its key
is absent. -/
def realtorDomPass (page : RPage) (emailRe : String → Option String) (r : RRecord) : RRecord :=
  rDomEmailStep page emailRe (rDomTelStep page (rDomNameStep page (rDomPriceStep page (rDomAddrStep page r))))

/-- extract_listing_data after the fetch and status checks: block check, the
seeded result dict, the structured-data pass, then the DOM fallback pass. -/
def realtorExtractFromHtml (parse : String → Option RJson) (emailRe : String → Option String)
    (page : RPage) (url : String) : Option RRecord :=
  if blockedListing page.text then none
  else
    let r0 : RRecord := [("url", some (.str url)), ("source", some (.str "realtor"))]
    some (realtorDomPass page emailRe (realtorJsonPass (realtorExtractJsonLd parse page.blocks) r0))

/-- extract_listing_data including the fetch boundary: None from
fetch_with_retries or a non-200 status yields no record. -/
def realtorExtractTop (fetched : Option (Nat × RPage)) (parse : String → Option RJson)
    (emailRe : String → Option String) (url : String) : Option RRecord :=
  match fetched with
  | none => none
  | some (s, page) => if s ≠ 200 then none else realtorExtractFromHtml parse emailRe page url

/-! ### Record extraction: zillow _extract_listing_data (lines 359-568) -/

/-- Words for Python s.split() with no argument: split on whitespace runs,
dropping empty pieces. cur holds the current word reversed. -/
def pySplitWsCore : List Char → List Char → List String
  | cur, [] => if cur.isEmpty then [] else [⟨cur.reverse⟩]
  | cur, c :: rest =>
    if pyWS c then
      if cur.isEmpty then pySplitWsCore [] rest
      else ⟨cur.reverse⟩ :: pySplitWsCore [] rest
    else pySplitWsCore (c :: cur) rest

/-- Python s.split() with no argument. -/
def pySplitWs (s : String) : List String := pySplitWsCore [] s.data

/-- A fetched zillow listing page at the browser boundary: page content, its
JSON-LD block texts, the query_selector results (first match, inner_text
stripped; none when no element matches), the href of the first mailto anchor
(none when absent), and the (href, inner text) pairs of all anchors in
document order. -/
structure ZPage where
  content : String
  blocks : List String
  selText : String → Option String
  mailtoHref : Option String
  anchors : List (String × String)

/-- The agent profile page reached by the secondary fetch: its content, JSON-LD
blocks and first mailto href. -/
structure ZAgentPage where
  content : String
  blocks : List String
  mailtoHref : Option String

/-- The local variables of _extract_listing_data while it runs. -/
structure ZSt where
  name : Option RJson
  city : Option RJson
  email : Option RJson
  brokerage : Option RJson
  lastSale : Option String

/-- The returned lead dict of _extract_listing_data. -/
structure ZLead where
  name : Option RJson
  city : Option RJson
  email : Option RJson
  brokerage : Option RJson
  lastSale : Option String
  source : String
  url : String

/-- Python x or y for optional strings. -/
def pyOrS (a b : Option String) : Option String :=
  match a with
  | some s => if s ≠ "" then a else b
  | none => b

/-- One JSON-LD object of the zillow structured-data pass (lines 383-402):
first-truthy-wins via the Python or idiom for name, email, brokerage, city,
and the price-derived last-sale text. -/
def zJsonStep (st : ZSt) (data : RJson) : ZSt :=
  match data with
  | .obj _ =>
    let t := pyLower (RJson.pyStr (ogetD (some data) "@type" (.str "")))
    let st :=
      if t ≠ "" ∧ pyIn "realestateagent" t then
        let st := { st with name := pyOrO st.name (oget (some data) "name"),
                            email := pyOrO st.email (oget (some data) "email") }
        let aff := oget (some data) "affiliation"
        if isObjO aff ∧ pyIn "broker" (pyLower (RJson.pyStr (ogetD aff "@type" (.str "")))) then
          { st with brokerage := pyOrO st.brokerage (oget aff "name") }
        else st
      else st
    let st :=
      if t ≠ "" ∧ (pyIn "offer" t ∨ pyIn "listing" t) then
        let price := pyOrO (oget (some data) "price") (oget (some (ogetD (some data) "offers" (.obj []))) "price")
        if jsonTruthyO price then
          let priceText := "Price: " ++ jsonPyStrO price ++ " " ++ RJson.pyStr (ogetD (some data) "priceCurrency" (.str ""))
          { st with lastSale := pyOrS st.lastSale (some priceText) }
        else st
      else st
    let addr := oget (some data) "address"
    if isObjO addr then
      { st with city := pyOrO st.city (pyOrO (oget addr "addressLocality") (oget addr "addressRegion")) }
    else st
  | _ => st

/-- The zillow name selector list. -/
def zNameSels : List String :=
  ["a.ds-agent-name", ".ds-listing-agent-name", "[data-testid=\"listing-agent-name\"]", ".listing-agent-name"]

/-- The zillow city selector list. -/
def zCitySels : List String :=
  ["h1", ".ds-address-container", "h1.ds-address-container", ".zsg-content-header"]

/-- The zillow brokerage selector list. -/
def zBrokerageSels : List String :=
  [".ds-listing-agent-company", ".agent-company", "[data-testid=\"brokerage-name\"]", ".listing-agent-company"]

/-- The sold keywords of the last-sale scan, in source order. -/
def zSoldKeywords : List String := ["Last sold", "Sold for", "Last sold for", "Sold on", "Price:"]

/-- The last-sale keyword scan (lines 448-461): first keyword found in the
lowered content; snippet of 120 characters before to 200 after the match,
whitespace-normalized, clipped to 400 characters. -/
def zLastSaleGo (content : String) : List String → Option String
  | [] => none
  | kw :: rest =>
    match strFindAt (pyLower kw).data (pyLower content).data with
    | some idx =>
      let snippet : List Char := (content.data.drop (idx - 120)).take ((idx + 200) - (idx - 120))
      some ⟨(String.intercalate " " (pySplitWs ⟨snippet⟩)).data.take 400⟩
    | none => zLastSaleGo content rest

/-- Name DOM fallback of the zillow extractor (lines 405-417): only while
falsy, first selector with non-empty text. -/
def zDomNameStep (page : ZPage) (st : ZSt) : ZSt :=
  if jsonTruthyO st.name then st else
    match firstNonEmptySel page.selText zNameSels with
    | some t => { st with name := some (.str t) }
    | none => st

/-- City DOM fallback (lines 419-431). -/
def zDomCityStep (page : ZPage) (st : ZSt) : ZSt :=
  if jsonTruthyO st.city then st else
    match firstNonEmptySel page.selText zCitySels with
    | some t => { st with city := some (.str t) }
    | none => st

/-- Brokerage DOM fallback (lines 433-445). -/
def zDomBrokerStep (page : ZPage) (st : ZSt) : ZSt :=
  if jsonTruthyO st.brokerage then st else
    match firstNonEmptySel page.selText zBrokerageSels with
    | some t => { st with brokerage := some (.str t) }
    | none => st

/-- Last-sale fallback (lines 447-461): only while falsy, the keyword scan. -/
def zDomLastSaleStep (page : ZPage) (st : ZSt) : ZSt :=
  match st.lastSale with
  | some s =>
    if s ≠ "" then st else
      match zLastSaleGo page.content zSoldKeywords with
      | some v => { st with lastSale := some v }
      | none => st
  | none =>
    match zLastSaleGo page.content zSoldKeywords with
    | some v => { st with lastSale := some v }
    | none => st

/-- The DOM fallback pass of the zillow extractor (lines 405-461): name, city,
brokerage, last sale, in source order. -/
def zDomPass (page : ZPage) (st : ZSt) : ZSt :=
  zDomLastSaleStep page (zDomBrokerStep page (zDomCityStep page (zDomNameStep page st)))

/-- href.split(mailto:)[1].split(question mark)[0]. -/
def zMailtoEmail (h : String) : String :=
  beforeFirst "?" (beforeFirst "mailto:" (afterFirst "mailto:" h))

/-- The normalize helper _normalize_url (lines 23-33). The two urljoin branches
are the stdlib boundary, written out for the href shapes that occur: a
path-absolute href concatenates onto the origin, a relative one onto the
origin with a slash. -/
def normalizeUrl (href : String) : String :=
  if href = "" then href
  else
    let h := pyStrip href
    if pyStartsWith "//" h then "https:" ++ h
    else if pyStartsWith "/" h then "https://www.zillow.com" ++ h
    else if pyStartsWith "http://" h || pyStartsWith "https://" h then h
    else if h = "" then "https://www.zillow.com"
    else "https://www.zillow.com/" ++ h

/-- The agent-link search of the email section (lines 478-498): first anchor
whose lowered href matches a profile pattern, or whose text mentions agent
while the href is path-absolute. -/
def zAgentLink : List (String × String) → Option String
  | [] => none
  | (href, txt) :: rest =>
    if href = "" then zAgentLink rest
    else
      let hl := pyLower href
      if pyIn "zillow.com/profile" hl ∨ pyIn "/agent/" hl ∨ pyIn "/profile/" hl ∨ pyIn "/agents/" hl then
        some href
      else if pyIn "agent" (pyLower txt) ∧ pyStartsWith "/" hl then some href
      else zAgentLink rest

/-- Email capture step 1 (lines 464-473): a mailto anchor on the listing page
assigns the email unconditionally, overwriting any structured-data value. -/
def zMailtoStep (page : ZPage) (st : ZSt) : ZSt :=
  match page.mailtoHref with
  | some h => if pyStartsWith "mailto:" h then { st with email := some (.str (zMailtoEmail h)) } else st
  | none => st

/-- One JSON-LD object of the agent-page pass inside the secondary fetch
(lines 511-515). -/
def zAgentPageJsonStep (st : ZSt) (j : RJson) : ZSt :=
  match j with
  | .obj _ =>
    if pyIn "realestateagent" (pyLower (RJson.pyStr (ogetD (some j) "@type" (.str "")))) then
      let st := { st with email := pyOrO st.email (oget (some j) "email") }
      if ¬ jsonTruthyO st.brokerage ∧ jsonHasKey j "affiliation" ∧ isObjO (oget (some j) "affiliation") then
        { st with brokerage := pyOrO st.brokerage (oget (oget (some j) "affiliation") "name") }
      else st
    else st
  | _ => st

/-- Email capture step 2 (lines 475-542): only while the email is falsy, find
an agent link and fetch it once; a failed navigation is swallowed leaving the
state unchanged. On the agent page: JSON-LD pass, then mailto, then regex on
its content. The Nat counts secondary fetch invocations. -/
def zSecondaryStep (page : ZPage) (secondary : String → Option ZAgentPage)
    (parse : String → Option RJson) (emailRe : String → Option String) (st : ZSt) : ZSt × Nat :=
  if jsonTruthyO st.email then (st, 0)
  else
    match zAgentLink page.anchors with
    | none => (st, 0)
    | some link =>
      match secondary (normalizeUrl link) with
      | none => (st, 1)
      | some ap =>
        let st := (zillowExtractJsonLd parse ap.blocks).foldl zAgentPageJsonStep st
        let st :=
          match ap.mailtoHref with
          | some h2 =>
            if pyStartsWith "mailto:" h2 then { st with email := pyOrO st.email (some (.str (zMailtoEmail h2))) }
            else st
          | none => st
        let st :=
          if ¬ jsonTruthyO st.email ∧ pyIn "@" ap.content then
            match emailRe ap.content with
            | some m => { st with email := some (.str m) }
            | none => st
          else st
        (st, 1)

/-- Email capture step 3 (lines 544-554): only while the email is still falsy,
regex scan of the listing content guarded by an at-sign test. -/
def zListingRegexStep (page : ZPage) (emailRe : String → Option String) (st : ZSt) : ZSt :=
  if jsonTruthyO st.email then st
  else if pyIn "@" page.content then
    match emailRe page.content with
    | some m => { st with email := some (.str m) }
    | none => st
  else st

/-- The function _extract_listing_data: structured-data pass, DOM pass, the three email
steps, then the returned lead dict. The Nat is the number of secondary
fetches performed. -/
def zillowExtractListing (parse : String → Option RJson) (emailRe : String → Option String)
    (page : ZPage) (secondary : String → Option ZAgentPage) (url : String) : ZLead × Nat :=
  let st : ZSt := ⟨none, none, none, none, none⟩
  let st := (zillowExtractJsonLd parse page.blocks).foldl zJsonStep st
  let st := zDomPass page st
  let st1 := zMailtoStep page st
  let p := zSecondaryStep page secondary parse emailRe st1
  let st2 := zListingRegexStep page emailRe p.1
  ({ name := st2.name, city := st2.city, email := st2.email, brokerage := st2.brokerage,
     lastSale := st2.lastSale, source := "zillow", url := url }, p.2)

/-- Modelled from the claim: the email resolution order exactly as claim C5
states it — mailto on the listing page only while the email is missing, then a
regex scan of the listing text, then, only if still missing and a profile link
is present, one secondary fetch repeating the mailto-then-regex scan there.
Written from the words of the claim, for comparison with the embedded code. -/
def specC5EmailOrder (page : ZPage) (secondary : String → Option ZAgentPage)
    (emailRe : String → Option String) (jsonEmail : Option RJson) : Option RJson :=
  if jsonTruthyO jsonEmail then jsonEmail
  else
    let m1 : Option RJson :=
      match page.mailtoHref with
      | some h => if pyStartsWith "mailto:" h then some (.str (zMailtoEmail h)) else none
      | none => none
    if jsonTruthyO m1 then m1
    else
      let m2 : Option RJson := (emailRe page.content).map .str
      if jsonTruthyO m2 then m2
      else
        match zAgentLink page.anchors with
        | none => none
        | some link =>
          match secondary (normalizeUrl link) with
          | none => none
          | some ap =>
            let m3 : Option RJson :=
              match ap.mailtoHref with
              | some h2 => if pyStartsWith "mailto:" h2 then some (.str (zMailtoEmail h2)) else none
              | none => none
            if jsonTruthyO m3 then m3 else (emailRe ap.content).map .str

/-! ### Orchestration: run_scrape of both scrapers -/

/-- Python l[:n] with a possibly negative n. -/
def pyTake (n : Int) (l : List String) : List String :=
  if 0 ≤ n then l.take n.toNat else l.take (l.length - (-n).toNat)

/-- Inner url-merge loop of realtor run_scrape (lines 450-454): append when
new, then break as soon as the accumulated length reaches max_total (the check
sits outside the not-in guard). -/
def rInnerAdd (maxTotal : Int) : List String → List String → List String
  | acc, [] => acc
  | acc, u :: us =>
    let acc2 := if acc.contains u then acc else acc ++ [u]
    if maxTotal ≤ (acc2.length : Int) then acc2 else rInnerAdd maxTotal acc2 us

/-- Seed loop of realtor run_scrape (lines 444-456): per seed, merge its
collected urls, stopping once max_total urls are queued. collect stands for
collect_listing_urls_from_search with the per-seed limit applied. -/
def rSeedLoop (collect : String → List String) (maxTotal : Int) :
    List String → List String → List String
  | acc, [] => acc
  | acc, seed :: rest =>
    let acc2 := rInnerAdd maxTotal acc (collect seed)
    if maxTotal ≤ (acc2.length : Int) then acc2 else rSeedLoop collect maxTotal acc2 rest

/-- Extraction loop of realtor run_scrape (lines 461-472): per url, a
per-listing failure (None, or the exception the try absorbs) contributes
nothing; a truthy dict is appended. -/
def rExtractLoop (extract : String → Option RRecord) : List String → List RRecord
  | [] => []
  | u :: us =>
    match extract u with
    | some d => if d.isEmpty then rExtractLoop extract us else d :: rExtractLoop extract us
    | none => rExtractLoop extract us

/-- realtor run_scrape (lines 409-477) after configuration normalization:
queue up to max_total deduplicated urls from the seeds, slice to max_total,
extract each, return the leads list (and nothing else). -/
def realtorRunScrape (collect : String → List String) (extract : String → Option RRecord)
    (seeds : List String) (maxTotal : Int) : List RRecord :=
  rExtractLoop extract (pyTake maxTotal (rSeedLoop collect maxTotal [] seeds))

/-- Inner url-merge loop of zillow run_scrape (lines 651-655): the cap check
runs before every append. -/
def zInnerAdd (maxTotal : Int) : List String → List String → List String
  | acc, [] => acc
  | acc, u :: us =>
    if maxTotal ≤ (acc.length : Int) then acc
    else zInnerAdd maxTotal (if acc.contains u then acc else acc ++ [u]) us

/-- Seed loop of zillow run_scrape (lines 641-655): stop pulling seeds once
max_total urls are queued; a collector error yields the empty url list, which
the parameter collect already absorbs. -/
def zSeedLoop (collect : String → List String) (maxTotal : Int) :
    List String → List String → List String
  | acc, [] => acc
  | acc, seed :: rest =>
    if maxTotal ≤ (acc.length : Int) then acc
    else zSeedLoop collect maxTotal (zInnerAdd maxTotal acc (collect seed)) rest

/-- Lead loop of zillow run_scrape (lines 660-694): stop once max_total leads
are collected; a failed navigation or per-listing error (None) contributes
nothing; an extracted lead dict is always truthy and is appended. -/
def zLeadLoop (runUrl : String → Option ZLead) (maxTotal : Int) (acc : List ZLead) :
    List String → List ZLead
  | [] => acc
  | u :: us =>
    if maxTotal ≤ (acc.length : Int) then acc
    else
      match runUrl u with
      | some lead => zLeadLoop runUrl maxTotal (acc ++ [lead]) us
      | none => zLeadLoop runUrl maxTotal acc us

/-- zillow run_scrape (lines 574-705) after configuration normalization. -/
def zillowRunScrape (collect : String → List String) (runUrl : String → Option ZLead)
    (seeds : List String) (maxTotal : Int) : List ZLead :=
  zLeadLoop runUrl maxTotal [] (zSeedLoop collect maxTotal [] seeds)

/-- The deduplicated union of everything the seeds can discover, with no cap:
the reference stream for the cap-enforcement proofs. -/
def specDiscovered (collect : String → List String) (seeds : List String) : List String :=
  seeds.foldl (fun acc s => dedupInto acc (collect s)) []

/-! ### Concrete instances used by the witnesses and counterexamples.
Each abstract stdlib boundary is instantiated so that its behaviour on the
inputs actually consulted matches the stdlib behaviour there. -/

/-- A fetcher whose every attempt is a 500 without headers. -/
def c2resp : Nat → AttemptOutcome := fun _ => .ok ⟨500, none⟩

/-- A fetcher whose every attempt is a 429 without a Retry-After header. -/
def c4resp : Nat → AttemptOutcome := fun _ => .ok ⟨429, none⟩

/-- A legal standard-uniform draw sequence: always three quarters. -/
def c4u : Nat → ℚ := fun _ => 3/4

/-- A fetcher whose every attempt is a 429 with the numeric header
Retry-After: 7. -/
def c4wresp : Nat → AttemptOutcome := fun _ => .ok ⟨429, some (.num 7)⟩

/-- A fetcher whose every attempt is a 403. -/
def c10resp : Nat → AttemptOutcome := fun _ => .ok ⟨403, none⟩

/-- An unremarkable search page for the caller checks. -/
def c10spage : RSearchPage := { text := "", blocks := [], anchors := [] }

/-- An unremarkable listing page for the caller checks. -/
def c10lpage : RPage := { text := "", blocks := [], sel := fun _ => none, telHref := none, textBlob := "" }

/-- A search page whose two anchors differ only in their query strings. -/
def c3page : RSearchPage :=
  { text := "", blocks := [],
    anchors := ["https://www.realtor.com/realestateandhomes-detail/h1?a=1",
                "https://www.realtor.com/realestateandhomes-detail/h1?a=2"] }

/-- urljoin against the seed restricted to absolute hrefs, where it returns the
href unchanged. -/
def c3join : String → String := fun h => h

/-- A JSON-LD block of two concatenated objects, and a parse covering exactly
what json.loads accepts among the strings consulted: the concatenation fails,
each re-braced part succeeds, and a third standalone block succeeds. -/
def c8block : String := "\x7b\"a\": 1\x7d\x7b\"b\": 2\x7d"

/-- A well-formed standalone block, for the per-block independence witness. -/
def c8good : String := "\x7b\"g\": 3\x7d"

/-- json.loads on the strings the C8 scenarios consult. -/
def c8parse : String → Option RJson := fun s =>
  if s = "\x7b\"a\": 1\x7d" then some (.obj [("a", .num 1)])
  else if s = "\x7b\"b\": 2\x7d" then some (.obj [("b", .num 2)])
  else if s = c8good then some (.obj [("g", .num 3)])
  else none

/-- A listing page whose body mentions distil but none of the three keywords
the listing check tests. -/
def c7page : RPage :=
  { text := "protected by distil networks", blocks := [], sel := fun _ => none,
    telHref := none, textBlob := "" }

/-- A search page and a listing page that both contain captcha. -/
def c7wspage : RSearchPage := { text := "please solve this CAPTCHA", blocks := [], anchors := [] }

/-- The listing-page variant of the captcha witness page. -/
def c7wlpage : RPage :=
  { text := "please solve this CAPTCHA", blocks := [], sel := fun _ => none,
    telHref := none, textBlob := "" }

/-- A JSON-LD block whose only object is a RealEstateAgent without a name. -/
def c6block : String := "\x7b\"@type\": \"RealEstateAgent\"\x7d"

/-- json.loads on the C6 counterexample block. -/
def c6parse : String → Option RJson := fun s =>
  if s = c6block then some (.obj [("@type", .str "RealEstateAgent")]) else none

/-- A listing page whose agent-name selector matches an element with text,
while the JSON-LD agent object has no name. -/
def c6page : RPage :=
  { text := "agent listing", blocks := [c6block],
    sel := fun s => if s = rAgentNameSel then some "Jane Smith" else none,
    telHref := none, textBlob := "" }

/-- Two residence objects whose addresses carry different localities and no
street address, for the C6 witness. -/
def c6wblock : String :=
  "[\x7b\"@type\": \"SingleFamilyResidence\", \"address\": \x7b\"addressLocality\": \"SF\"\x7d\x7d, \x7b\"@type\": \"SingleFamilyResidence\", \"address\": \x7b\"addressLocality\": \"LA\"\x7d\x7d]"

/-- json.loads on the C6 witness block. -/
def c6wparse : String → Option RJson := fun s =>
  if s = c6wblock then
    some (.arr
      [.obj [("@type", .str "SingleFamilyResidence"), ("address", .obj [("addressLocality", .str "SF")])],
       .obj [("@type", .str "SingleFamilyResidence"), ("address", .obj [("addressLocality", .str "LA")])]])
  else none

/-- A listing page whose h1 carries a street address, for the C6 witness. -/
def c6wpage : RPage :=
  { text := "listing", blocks := [c6wblock],
    sel := fun s => if s = "h1" then some "12 Main St" else none,
    telHref := none, textBlob := "" }

/-- Listing body for the C5 counterexample: no mailto anchor, an email-shaped
token in the visible text, and an agent profile link. -/
def c5listingContent : String := "reach us at listing@example.com today"

/-- Agent page body for the C5 counterexample. -/
def c5agentContent : String := "write jane@agency.com"

/-- The C5 counterexample listing page. -/
def c5page : ZPage :=
  { content := c5listingContent, blocks := [], selText := fun _ => none,
    mailtoHref := none, anchors := [("/agent/jane", "Jane")] }

/-- The agent profile page the secondary fetch reaches. -/
def c5agentPage : ZAgentPage := { content := c5agentContent, blocks := [], mailtoHref := none }

/-- The secondary fetch of the C5 counterexample. -/
def c5secondary : String → Option ZAgentPage := fun l =>
  if l = "https://www.zillow.com/agent/jane" then some c5agentPage else none

/-- re.search with the fixed email pattern, on the two bodies consulted. -/
def c5emailRe : String → Option String := fun s =>
  if s = c5listingContent then some "listing@example.com"
  else if s = c5agentContent then some "jane@agency.com"
  else none

/-- A listing page with a mailto anchor, for the C5 witness. -/
def c5wpage : ZPage :=
  { content := "", blocks := [], selText := fun _ => none,
    mailtoHref := some "mailto:bob@x.com?subject=hi", anchors := [] }

/-- A seed whose search page yields three listing urls. -/
def c1collect : String → List String := fun s => if s = "s1" then ["u1", "u2", "u3"] else []

/-- The record the realtor extractor returns for url u when the page is empty
of signals. -/
def c1rec (u : String) : RRecord := [("url", some (.str u)), ("source", some (.str "realtor"))]

/-- An extractor that succeeds on every url. -/
def c1extract : String → Option RRecord := fun u => some (c1rec u)

/-- The lead the zillow extractor returns for url u on a signal-free page. -/
def c1zlead (u : String) : ZLead := ⟨none, none, none, none, none, "zillow", u⟩

/-- A zillow per-url task that succeeds on every url. -/
def c1runUrl : String → Option ZLead := fun u => some (c1zlead u)

/-- Scenario A of the C9 counterexample: one seed, one url, which extracts. -/
def c9collectA : String → List String := fun s => if s = "s" then ["u1"] else []

/-- Scenario B: the same seed also discovers u0, whose task fails. -/
def c9collectB : String → List String := fun s => if s = "s" then ["u0", "u1"] else []

/-- The one successful record of the C9 scenarios. -/
def c9rec : RRecord := [("url", some (.str "u1")), ("source", some (.str "realtor"))]

/-- The extractor of both C9 scenarios: u0 fails (blocked or fetch failure),
u1 succeeds. -/
def c9extract : String → Option RRecord := fun u => if u = "u1" then some c9rec else none

/-! ## Theorems

First the supporting lemmas, then one theorem per claim (with witnesses and
counterexamples where required). -/

theorem fetch5xxAux (respOf : Nat → AttemptOutcome) (u : Nat → ℚ) (base : ℚ) (n : Nat)
    (rLast : HResp) (hlast : respOf n = .ok rLast) :
    ∀ rem attempt, 1 ≤ rem → attempt + rem = n + 1 →
      (∀ i, attempt ≤ i → i ≤ n → ∃ r, respOf i = .ok r ∧ 500 ≤ r.status ∧ r.status < 600) →
      (fetchLoopAux respOf u base n rem attempt).attempts = rem ∧
      (fetchLoopAux respOf u base n rem attempt).result = some rLast := by
  intro rem
  induction rem with
  | zero => intro attempt h1 _ _; exact absurd h1 (by omega)
  | succ rem ih =>
    intro attempt _ hsum h5
    obtain ⟨r, hr, hs1, hs2⟩ := h5 attempt le_rfl (by omega)
    have h200 : ¬ r.status = 200 := by omega
    have h429 : ¬ r.status = 429 := by omega
    rcases Nat.eq_zero_or_pos rem with hrem | hrem
    · subst hrem
      have hat : attempt = n := by omega
      have hcond : ¬ (500 ≤ r.status ∧ r.status < 600 ∧ attempt < n) := by omega
      have hrr : r = rLast := by rw [hat, hlast] at hr; cases hr; rfl
      simp only [fetchLoopAux, hr, if_neg h200, if_neg h429, if_neg hcond]
      exact ⟨by simp, by simp [hrr]⟩
    · have hcond : (500 ≤ r.status ∧ r.status < 600 ∧ attempt < n) := ⟨hs1, hs2, by omega⟩
      have hrec := ih (attempt + 1) hrem (by omega) (fun i hi1 hi2 => h5 i (by omega) hi2)
      simp only [fetchLoopAux, hr, if_neg h200, if_neg h429, if_pos hcond]
      exact ⟨by simp [hrec.1], hrec.2⟩

/-- C2: when every attempt yields a 5xx server error and maxRetries is n with
1 <= n, fetch_with_retries performs exactly n attempts and returns the
response of the last attempt itself — the already-classified server error, not
a newly invented outcome. -/
theorem claim2_retry_ceiling (respOf : Nat → AttemptOutcome) (u : Nat → ℚ) (base : ℚ)
    (n : Nat) (rLast : HResp) (hn : 1 ≤ n) (hlast : respOf n = .ok rLast)
    (h5 : ∀ i, 1 ≤ i → i ≤ n → ∃ r, respOf i = .ok r ∧ 500 ≤ r.status ∧ r.status < 600) :
    (fetchWithRetries respOf u base n).attempts = n ∧
    (fetchWithRetries respOf u base n).result = some rLast := by
  unfold fetchWithRetries
  exact fetch5xxAux respOf u base n rLast hlast n 1 hn (by omega) h5

theorem claim2_retry_ceiling_witness :
    (fetchWithRetries c2resp (fun _ => 0) 3 3).attempts = 3 ∧
    (fetchWithRetries c2resp (fun _ => 0) 3 3).result = some ⟨500, none⟩ :=
  claim2_retry_ceiling c2resp (fun _ => 0) 3 3 ⟨500, none⟩ (by decide) rfl
    (fun i _ _ => ⟨⟨500, none⟩, rfl, by decide, by decide⟩)

/-- C4 (amended): on a 429 whose Retry-After is numeric with value q, the wait
before the next attempt is exactly q. On a 429 without the header the wait is
base * 2 ^ (attempt - 1) plus a jitter drawn uniformly from the interval 1 to
4 (not 0.5 to 3); with a non-numeric header the jitter interval is 1 to 3.
The deterministic part doubles with each attempt. -/
theorem claim4_backoff (respOf : Nat → AttemptOutcome) (u : Nat → ℚ) (base : ℚ)
    (maxRetries rem attempt : Nat) (r : HResp)
    (hr : respOf attempt = .ok r) (h429 : r.status = 429) :
    (∀ q, r.retryAfter = some (.num q) →
      (fetchLoopAux respOf u base maxRetries (rem + 1) attempt).waits.head? = some q) ∧
    (r.retryAfter = none →
      (fetchLoopAux respOf u base maxRetries (rem + 1) attempt).waits.head? =
        some (base * 2 ^ (attempt - 1) + (1 + 3 * u attempt)) ∧
      (0 ≤ u attempt → u attempt ≤ 1 →
        1 ≤ 1 + 3 * u attempt ∧ 1 + 3 * u attempt ≤ 4)) ∧
    (r.retryAfter = some .nonNum →
      (fetchLoopAux respOf u base maxRetries (rem + 1) attempt).waits.head? =
        some (base * 2 ^ (attempt - 1) + (1 + 2 * u attempt)) ∧
      (0 ≤ u attempt → u attempt ≤ 1 →
        1 ≤ 1 + 2 * u attempt ∧ 1 + 2 * u attempt ≤ 3)) ∧
    (1 ≤ attempt → base * 2 ^ ((attempt + 1) - 1) = 2 * (base * 2 ^ (attempt - 1))) := by
  have h200 : ¬ r.status = 200 := by omega
  refine ⟨?_, ?_, ?_, ?_⟩
  · intro q hra
    simp only [fetchLoopAux, hr, if_neg h200, if_pos h429, hra, List.head?]
  · intro hra
    constructor
    · simp only [fetchLoopAux, hr, if_neg h200, if_pos h429, hra, List.head?]
    · intro hu0 hu1
      constructor <;> linarith
  · intro hra
    constructor
    · simp only [fetchLoopAux, hr, if_neg h200, if_pos h429, hra, List.head?]
    · intro hu0 hu1
      constructor <;> linarith
  · intro h1
    have hsub : attempt + 1 - 1 = attempt - 1 + 1 := by omega
    rw [hsub, pow_succ]; ring

theorem claim4_backoff_witness :
    (fetchLoopAux c4wresp (fun _ => 0) 3 2 2 1).waits.head? = some 7 :=
  (claim4_backoff c4wresp (fun _ => 0) 3 2 1 1 ⟨429, some (.num 7)⟩ rfl rfl).1 7 rfl

/-- C4 counterexample: with backoff base 3 and the legal uniform draw three
quarters, the first 429 without a Retry-After header sleeps 3 * 2 ^ 0 plus a
jitter of 13/4 = 3.25, which lies outside the claimed jitter interval from
0.5 to 3. -/
theorem claim4_counterexample :
    (0:ℚ) ≤ c4u 1 ∧ c4u 1 < 1 ∧
    (fetchWithRetries c4resp c4u 3 2).waits.head? = some (3 * 2 ^ 0 + 13/4) ∧
    ¬ (1/2 ≤ (13/4 : ℚ) ∧ (13/4 : ℚ) ≤ 3) := by
  refine ⟨by norm_num [c4u], by norm_num [c4u], ?_, by norm_num⟩
  show (fetchLoopAux c4resp c4u 3 2 2 1).waits.head? = _
  norm_num [fetchLoopAux, c4resp, c4u]

/-- C10: fetch_with_retries returns a response that is not a 200 in two ways —
any 4xx other than 429 is returned on the very attempt it occurs, and a 5xx on
the final attempt is returned as-is — so a non-None return does not imply
success; and both callers re-check the status code, treating any non-200
response (and a None) as a failed fetch that produces no candidates and no
record. -/
theorem claim10_non200_responses :
    (∀ (respOf : Nat → AttemptOutcome) (u : Nat → ℚ) (base : ℚ) (maxR rem attempt : Nat) (r : HResp),
      respOf attempt = .ok r → 400 ≤ r.status → r.status < 500 → r.status ≠ 429 →
      fetchLoopAux respOf u base maxR (rem + 1) attempt = ⟨some r, 1, []⟩) ∧
    (∀ (respOf : Nat → AttemptOutcome) (u : Nat → ℚ) (base : ℚ) (maxR rem attempt : Nat) (r : HResp),
      respOf attempt = .ok r → 500 ≤ r.status → r.status < 600 → maxR ≤ attempt →
      fetchLoopAux respOf u base maxR (rem + 1) attempt = ⟨some r, 1, []⟩) ∧
    (∀ (s : Nat) (page : RSearchPage) parse join limit, s ≠ 200 →
      realtorCollectTop (some (s, page)) parse join limit = []) ∧
    (∀ (s : Nat) (page : RPage) parse emailRe url, s ≠ 200 →
      realtorExtractTop (some (s, page)) parse emailRe url = none) ∧
    (∀ parse join limit, realtorCollectTop none parse join limit = []) ∧
    (∀ parse emailRe url, realtorExtractTop none parse emailRe url = none) := by
  refine ⟨?_, ?_, ?_, ?_, fun _ _ _ => rfl, fun _ _ _ => rfl⟩
  · intro respOf u base maxR rem attempt r hr h4 h5 hne
    have h200 : ¬ r.status = 200 := by omega
    have h429 : ¬ r.status = 429 := hne
    have hcond : ¬ (500 ≤ r.status ∧ r.status < 600 ∧ attempt < maxR) := by omega
    simp only [fetchLoopAux, hr, if_neg h200, if_neg h429, if_neg hcond]
  · intro respOf u base maxR rem attempt r hr h5 h6 hle
    have h200 : ¬ r.status = 200 := by omega
    have h429 : ¬ r.status = 429 := by omega
    have hcond : ¬ (500 ≤ r.status ∧ r.status < 600 ∧ attempt < maxR) := by omega
    simp only [fetchLoopAux, hr, if_neg h200, if_neg h429, if_neg hcond]
  · intro s page parse join limit hs
    simp [realtorCollectTop, hs]
  · intro s page parse emailRe url hs
    simp [realtorExtractTop, hs]

theorem claim10_non200_responses_witness :
    fetchLoopAux c10resp (fun _ => 0) 3 5 5 1 = ⟨some ⟨403, none⟩, 1, []⟩ ∧
    realtorCollectTop (some (403, c10spage)) (fun _ => none) id 5 = [] ∧
    realtorExtractTop (some (403, c10lpage)) (fun _ => none) (fun _ => none) "u" = none :=
  ⟨claim10_non200_responses.1 c10resp (fun _ => 0) 3 5 4 1 ⟨403, none⟩ rfl (by decide)
      (by decide) (by decide),
    claim10_non200_responses.2.2.1 403 c10spage (fun _ => none) id 5 (by decide),
    claim10_non200_responses.2.2.2.1 403 c10lpage (fun _ => none) (fun _ => none) "u" (by decide)⟩

/-! ### Record-dictionary lemmas -/

theorem lookup_append_some (s : RRecord) {r : RRecord} {k : String} {v : Option RJson}
    (h : r.lookup k = some v) : (r ++ s).lookup k = some v := by
  induction r with
  | nil => simp [List.lookup] at h
  | cons p t ih =>
    obtain ⟨k2, v2⟩ := p
    cases hbe : (k == k2) with
    | true => simp only [List.cons_append, List.lookup, hbe] at h ⊢; exact h
    | false => simp only [List.cons_append, List.lookup, hbe] at h ⊢; exact ih h

theorem lookup_append_ne {k k2 : String} (hne : k ≠ k2) (w : Option RJson) (r : RRecord) :
    (r ++ [(k2, w)]).lookup k = r.lookup k := by
  have hb : (k == k2) = false := beq_eq_false_iff_ne.mpr hne
  induction r with
  | nil => simp [List.lookup, hb]
  | cons p t ih =>
    obtain ⟨k3, v3⟩ := p
    cases hbe : (k == k3) with
    | true => simp only [List.cons_append, List.lookup, hbe]
    | false => simp only [List.cons_append, List.lookup, hbe]; exact ih

theorem lookup_eq_none_of_hasKey_false {r : RRecord} {k : String} (h : hasKey r k = false) :
    r.lookup k = none := by
  unfold hasKey at h
  cases hx : r.lookup k with
  | none => rfl
  | some v => rw [hx] at h; simp at h

theorem lookup_append_self {r : RRecord} {k : String} (v : Option RJson)
    (h : r.lookup k = none) : (r ++ [(k, v)]).lookup k = some v := by
  induction r with
  | nil => simp [List.lookup]
  | cons p t ih =>
    obtain ⟨k2, v2⟩ := p
    cases hbe : (k == k2) with
    | true => simp only [List.lookup, hbe] at h; exact absurd h (by simp)
    | false => simp only [List.cons_append, List.lookup, hbe] at h ⊢; exact ih h

theorem lookup_setdefault (k2 : String) (w : Option RJson) {r : RRecord} {k : String}
    {v : Option RJson} (h : r.lookup k = some v) : (setdefault r k2 w).lookup k = some v := by
  unfold setdefault
  split
  · exact h
  · exact lookup_append_some _ h

theorem hasKey_append_ne {k k2 : String} (hne : k ≠ k2) (w : Option RJson) (r : RRecord) :
    hasKey (r ++ [(k2, w)]) k = hasKey r k := by
  unfold hasKey; rw [lookup_append_ne hne]

/-! ### Preservation of present fields through the realtor passes -/

theorem lookup_sdIf (b : Bool) (k2 : String) (w : Option RJson) {r : RRecord} {k : String}
    {v : Option RJson} (h : r.lookup k = some v) : (sdIf b k2 w r).lookup k = some v := by
  unfold sdIf
  split
  · exact lookup_setdefault _ _ h
  · exact h

theorem rjsResidenceAddr_preserve (obj : RJson) {r : RRecord} {k : String} {v : Option RJson}
    (h : r.lookup k = some v) : (rjsResidenceAddr obj r).lookup k = some v := by
  unfold rjsResidenceAddr
  try dsimp only
  split
  · exact lookup_sdIf _ _ _ (lookup_sdIf _ _ _ (lookup_sdIf _ _ _ (lookup_sdIf _ _ _ h)))
  · exact h

theorem rjsResidencePrice_preserve (obj : RJson) {r : RRecord} {k : String} {v : Option RJson}
    (h : r.lookup k = some v) : (rjsResidencePrice obj r).lookup k = some v := by
  unfold rjsResidencePrice
  try dsimp only
  split
  · exact lookup_sdIf _ _ _ h
  · exact lookup_sdIf _ _ _ h

theorem rjsResidence_preserve (obj : RJson) (t : Option RJson) (ts : String) {r : RRecord}
    {k : String} {v : Option RJson} (h : r.lookup k = some v) :
    (rjsResidence obj t ts r).lookup k = some v := by
  unfold rjsResidence
  split
  · exact rjsResidencePrice_preserve obj (rjsResidenceAddr_preserve obj h)
  · exact h

theorem rjsAgent_preserve (obj : RJson) (t : Option RJson) (ts : String) {r : RRecord}
    {k : String} {v : Option RJson} (h : r.lookup k = some v) :
    (rjsAgent obj t ts r).lookup k = some v := by
  unfold rjsAgent
  try dsimp only
  split
  · exact lookup_sdIf _ _ _ (lookup_setdefault _ _ (lookup_setdefault _ _ (lookup_setdefault _ _ h)))
  · exact h

theorem rjsOffer_preserve (obj : RJson) (t : Option RJson) (ts : String) {r : RRecord}
    {k : String} {v : Option RJson} (h : r.lookup k = some v) :
    (rjsOffer obj t ts r).lookup k = some v := by
  unfold rjsOffer
  split
  · exact lookup_sdIf _ _ _ h
  · exact h

theorem realtorJsonStep_preserve (obj : RJson) {r : RRecord} {k : String} {v : Option RJson}
    (h : r.lookup k = some v) : (realtorJsonStep r obj).lookup k = some v := by
  cases obj with
  | obj fs =>
    exact rjsOffer_preserve _ _ _ (rjsAgent_preserve _ _ _ (rjsResidence_preserve _ _ _ h))
  | null => exact h
  | bool b => exact h
  | num q => exact h
  | str s => exact h
  | arr l => exact h

theorem realtorJsonPass_preserve (objs : List RJson) {r : RRecord} {k : String}
    {v : Option RJson} (h : r.lookup k = some v) :
    (realtorJsonPass objs r).lookup k = some v := by
  induction objs generalizing r with
  | nil => exact h
  | cons o t ih =>
    simp only [realtorJsonPass, List.foldl]
    exact ih (realtorJsonStep_preserve o h)

theorem rDomAddrStep_preserve (page : RPage) {r : RRecord} {k : String} {v : Option RJson}
    (h : r.lookup k = some v) : (rDomAddrStep page r).lookup k = some v := by
  unfold rDomAddrStep
  repeat' first
    | exact h
    | exact lookup_append_some _ h
    | split

theorem rDomPriceStep_preserve (page : RPage) {r : RRecord} {k : String} {v : Option RJson}
    (h : r.lookup k = some v) : (rDomPriceStep page r).lookup k = some v := by
  unfold rDomPriceStep
  repeat' first
    | exact h
    | exact lookup_append_some _ h
    | split

theorem rDomNameStep_preserve (page : RPage) {r : RRecord} {k : String} {v : Option RJson}
    (h : r.lookup k = some v) : (rDomNameStep page r).lookup k = some v := by
  unfold rDomNameStep
  repeat' first
    | exact h
    | exact lookup_append_some _ h
    | split

theorem rDomTelStep_preserve (page : RPage) {r : RRecord} {k : String} {v : Option RJson}
    (h : r.lookup k = some v) : (rDomTelStep page r).lookup k = some v := by
  unfold rDomTelStep
  repeat' first
    | exact h
    | exact lookup_append_some _ h
    | split

theorem rDomEmailStep_preserve (page : RPage) (emailRe : String → Option String) {r : RRecord}
    {k : String} {v : Option RJson} (h : r.lookup k = some v) :
    (rDomEmailStep page emailRe r).lookup k = some v := by
  unfold rDomEmailStep
  repeat' first
    | exact h
    | exact lookup_append_some _ h
    | split

theorem realtorDomPass_preserve (page : RPage) (emailRe : String → Option String) {r : RRecord}
    {k : String} {v : Option RJson} (h : r.lookup k = some v) :
    (realtorDomPass page emailRe r).lookup k = some v :=
  rDomEmailStep_preserve page emailRe
    (rDomTelStep_preserve page (rDomNameStep_preserve page
      (rDomPriceStep_preserve page (rDomAddrStep_preserve page h))))

theorem rDomAddrStep_fill (page : RPage) {r : RRecord} {t : String}
    (hk : hasKey r "address" = false) (hs : firstNonEmptySel page.sel rAddressSels = some t) :
    (rDomAddrStep page r).lookup "address" = some (some (.str t)) := by
  unfold rDomAddrStep
  rw [hk, hs]
  simp only [Bool.false_eq_true, if_false]
  exact lookup_append_self _ (lookup_eq_none_of_hasKey_false hk)

theorem rDomPriceStep_fill (page : RPage) {r : RRecord} {t : String}
    (hk : hasKey r "price" = false) (hs : firstNonEmptySel page.sel rPriceSels = some t) :
    (rDomPriceStep page r).lookup "price" = some (some (.str t)) := by
  unfold rDomPriceStep
  rw [hk, hs]
  simp only [Bool.false_eq_true, if_false]
  exact lookup_append_self _ (lookup_eq_none_of_hasKey_false hk)

theorem rDomAddrStep_hasKey_other (page : RPage) (r : RRecord) {k : String}
    (hne : k ≠ "address") : hasKey (rDomAddrStep page r) k = hasKey r k := by
  unfold rDomAddrStep
  repeat' first
    | rfl
    | exact hasKey_append_ne hne _ _
    | split

theorem realtorDomPass_fill_address (page : RPage) (emailRe : String → Option String)
    {r : RRecord} {t : String} (hk : hasKey r "address" = false)
    (hs : firstNonEmptySel page.sel rAddressSels = some t) :
    (realtorDomPass page emailRe r).lookup "address" = some (some (.str t)) := by
  unfold realtorDomPass
  exact rDomEmailStep_preserve _ _ (rDomTelStep_preserve _ (rDomNameStep_preserve _
    (rDomPriceStep_preserve _ (rDomAddrStep_fill page hk hs))))

theorem realtorDomPass_fill_price (page : RPage) (emailRe : String → Option String)
    {r : RRecord} {t : String} (hk : hasKey r "price" = false)
    (hs : firstNonEmptySel page.sel rPriceSels = some t) :
    (realtorDomPass page emailRe r).lookup "price" = some (some (.str t)) := by
  unfold realtorDomPass
  have hk2 : hasKey (rDomAddrStep page r) "price" = false := by
    rw [rDomAddrStep_hasKey_other page r (by decide)]; exact hk
  exact rDomEmailStep_preserve _ _ (rDomTelStep_preserve _ (rDomNameStep_preserve _
    (rDomPriceStep_fill page hk2 hs)))

/-! ### Field-projection lemmas for the zillow DOM steps -/

theorem zDomNameStep_city (page : ZPage) (st : ZSt) : (zDomNameStep page st).city = st.city := by
  unfold zDomNameStep; repeat' first | rfl | split

theorem zDomNameStep_brokerage (page : ZPage) (st : ZSt) :
    (zDomNameStep page st).brokerage = st.brokerage := by
  unfold zDomNameStep; repeat' first | rfl | split

theorem zDomCityStep_brokerage (page : ZPage) (st : ZSt) :
    (zDomCityStep page st).brokerage = st.brokerage := by
  unfold zDomCityStep; repeat' first | rfl | split

theorem zDomBrokerStep_city (page : ZPage) (st : ZSt) :
    (zDomBrokerStep page st).city = st.city := by
  unfold zDomBrokerStep; repeat' first | rfl | split

theorem zDomLastSaleStep_city (page : ZPage) (st : ZSt) :
    (zDomLastSaleStep page st).city = st.city := by
  unfold zDomLastSaleStep; repeat' first | rfl | split

theorem zDomLastSaleStep_brokerage (page : ZPage) (st : ZSt) :
    (zDomLastSaleStep page st).brokerage = st.brokerage := by
  unfold zDomLastSaleStep; repeat' first | rfl | split

theorem zDomPass_city_of_truthy (page : ZPage) (st : ZSt) (h : jsonTruthyO st.city = true) :
    (zDomPass page st).city = st.city := by
  unfold zDomPass
  have h1 : (zDomNameStep page st).city = st.city := zDomNameStep_city _ _
  have h2 : (zDomCityStep page (zDomNameStep page st)).city = st.city := by
    unfold zDomCityStep
    rw [h1, h, if_pos rfl]
    exact h1
  rw [zDomLastSaleStep_city, zDomBrokerStep_city, h2]

theorem zDomPass_brokerage_fill (page : ZPage) (st : ZSt) {t : String}
    (hb : jsonTruthyO st.brokerage = false)
    (hs : firstNonEmptySel page.selText zBrokerageSels = some t) :
    (zDomPass page st).brokerage = some (.str t) := by
  unfold zDomPass
  have h1 : (zDomCityStep page (zDomNameStep page st)).brokerage = st.brokerage := by
    rw [zDomCityStep_brokerage, zDomNameStep_brokerage]
  have h2 : (zDomBrokerStep page (zDomCityStep page (zDomNameStep page st))).brokerage
      = some (.str t) := by
    unfold zDomBrokerStep
    rw [h1, hb]
    simp only [Bool.false_eq_true, if_false, hs]
  rw [zDomLastSaleStep_brokerage, h2]

/-- C6 (amended): a field key once present in the record — including keys the
agent branch inserts with value None when the JSON-LD object lacks that
property — is never overwritten: not by later structured-data objects, not by
the DOM fallback pass. A field whose key is absent after the structured-data
pass is filled by the first DOM selector of its ordered list that yields
non-empty text (shown for address and price). On the zillow side, a truthy
structured-data city survives the DOM pass unchanged, and a falsy brokerage is
filled by the first matching selector. -/
theorem claim6_first_match_wins :
    (∀ (objs : List RJson) (r : RRecord) (k : String) (v : Option RJson),
      r.lookup k = some v → (realtorJsonPass objs r).lookup k = some v) ∧
    (∀ (page : RPage) (emailRe : String → Option String) (r : RRecord) (k : String)
      (v : Option RJson), r.lookup k = some v →
      (realtorDomPass page emailRe r).lookup k = some v) ∧
    (∀ (page : RPage) (emailRe : String → Option String) (r : RRecord) (t : String),
      hasKey r "address" = false → firstNonEmptySel page.sel rAddressSels = some t →
      (realtorDomPass page emailRe r).lookup "address" = some (some (.str t))) ∧
    (∀ (page : RPage) (emailRe : String → Option String) (r : RRecord) (t : String),
      hasKey r "price" = false → firstNonEmptySel page.sel rPriceSels = some t →
      (realtorDomPass page emailRe r).lookup "price" = some (some (.str t))) ∧
    (∀ (page : ZPage) (st : ZSt), jsonTruthyO st.city = true →
      (zDomPass page st).city = st.city) ∧
    (∀ (page : ZPage) (st : ZSt) (t : String), jsonTruthyO st.brokerage = false →
      firstNonEmptySel page.selText zBrokerageSels = some t →
      (zDomPass page st).brokerage = some (.str t)) :=
  ⟨fun objs r k v h => realtorJsonPass_preserve objs h,
   fun page emailRe r k v h => realtorDomPass_preserve page emailRe h,
   fun page emailRe r t hk hs => realtorDomPass_fill_address page emailRe hk hs,
   fun page emailRe r t hk hs => realtorDomPass_fill_price page emailRe hk hs,
   fun page st h => zDomPass_city_of_truthy page st h,
   fun page st t hb hs => zDomPass_brokerage_fill page st hb hs⟩

/-- C6 counterexample: a page whose JSON-LD carries a RealEstateAgent object
without a name, while the agent-name DOM selector matches the text Jane Smith.
The structured-data pass inserts agent_name with value None via setdefault, so
the DOM fallback is skipped and the extracted record carries agent_name = None
— not Jane Smith as the claim (a missing field is filled by the first matching
DOM selector) requires. -/
theorem claim6_counterexample :
    (realtorExtractFromHtml c6parse (fun _ => none) c6page "u").map
        (fun r => r.lookup "agent_name") = some (some none) ∧
    c6page.sel rAgentNameSel = some "Jane Smith" ∧
    some (none : Option RJson) ≠ some (some (RJson.str "Jane Smith")) := by
  refine ⟨rfl, rfl, ?_⟩
  intro h
  injection h with h1
  exact Option.noConfusion h1

theorem claim6_first_match_wins_witness :
    (realtorJsonPass [] [("city", some (.str "SF"))]).lookup "city" = some (some (.str "SF")) ∧
    (realtorDomPass c6wpage (fun _ => none) [("city", some (.str "SF"))]).lookup "city"
      = some (some (.str "SF")) ∧
    (realtorDomPass c6wpage (fun _ => none) [("city", some (.str "SF"))]).lookup "address"
      = some (some (.str "12 Main St")) :=
  ⟨claim6_first_match_wins.1 [] _ "city" _ rfl,
   claim6_first_match_wins.2.1 c6wpage _ _ "city" _ rfl,
   claim6_first_match_wins.2.2.1 c6wpage (fun _ => none) [("city", some (.str "SF"))]
     "12 Main St" (by decide) rfl⟩

/-! ### C7: block detection -/

/-- C7 (amended): block detection is a pure function of the lower-cased body,
but the keyword sets differ by call site: the search-page check tests captcha,
verify you are human, access denied and distil; the listing-page check tests
only the first three (distil and unusual traffic are not detected there). A
blocked page yields no candidates and no record, and the embedded functions
are total, so the run does not raise. -/
theorem claim7_blocked_pages :
    (∀ parse join (page : RSearchPage) limit, blockedSearch page.text = true →
      realtorCollectFromHtml parse join page limit = []) ∧
    (∀ parse emailRe (page : RPage) url, blockedListing page.text = true →
      realtorExtractFromHtml parse emailRe page url = none) ∧
    (∀ body : String, blockedSearch body =
      (pyIn "captcha" (pyLower body) || pyIn "verify you are human" (pyLower body) ||
       pyIn "access denied" (pyLower body) || pyIn "distil" (pyLower body))) ∧
    (∀ body : String, blockedListing body =
      (pyIn "captcha" (pyLower body) || pyIn "verify you are human" (pyLower body) ||
       pyIn "access denied" (pyLower body))) := by
  refine ⟨?_, ?_, fun _ => rfl, fun _ => rfl⟩
  · intro parse join page limit hb
    simp [realtorCollectFromHtml, hb]
  · intro parse emailRe page url hb
    simp [realtorExtractFromHtml, hb]

theorem claim7_blocked_pages_witness :
    realtorCollectFromHtml (fun _ => none) id c7wspage 5 = [] ∧
    realtorExtractFromHtml (fun _ => none) (fun _ => none) c7wlpage "u" = none :=
  ⟨claim7_blocked_pages.1 (fun _ => none) id c7wspage 5 (by decide),
   claim7_blocked_pages.2.1 (fun _ => none) (fun _ => none) c7wlpage "u" (by decide)⟩

/-- C7 counterexample: a listing body containing distil (and none of the three
keywords the listing check tests) is not classified as blocked — the extractor
proceeds and produces a record, where the claim requires the page to be
blocked and the task to produce no record. -/
theorem claim7_counterexample :
    pyIn "distil" (pyLower c7page.text) = true ∧
    realtorExtractFromHtml (fun _ => none) (fun _ => none) c7page "u" =
      some [("url", some (.str "u")), ("source", some (.str "realtor"))] := by
  exact ⟨by decide, rfl⟩

/-! ### C8: JSON-LD extraction -/

theorem extractFold_eq_flatMap (f : String → List RJson) (blocks : List String) :
    blocks.foldl (fun out raw => out ++ f raw) [] = blocks.flatMap f := by
  have h : ∀ init : List RJson,
      blocks.foldl (fun out raw => out ++ f raw) init = init ++ blocks.flatMap f := by
    induction blocks with
    | nil => intro init; simp
    | cons b t ih => intro init; simp only [List.foldl, List.flatMap_cons, ih, List.append_assoc]
  simpa using h []

/-- C8 (amended): both extract_json_ld functions process blocks independently
— the output is the concatenation of the per-block parse results, so one
malformed block never drops the others — and they are total, so parse errors
never propagate. A block whose cleaned text parses contributes its objects
whatever the other blocks contain. The realtor variant additionally salvages
concatenated objects by split-and-reparse; the zillow variant has no such
salvage (see the counterexample). -/
theorem claim8_parse_isolation (parse : String → Option RJson) (blocks : List String) :
    realtorExtractJsonLd parse blocks = blocks.flatMap (realtorProcessBlock parse) ∧
    zillowExtractJsonLd parse blocks = blocks.flatMap (zillowProcessBlock parse) ∧
    (∀ raw ∈ blocks, ∀ j,
      parse (pyStrip (removeAll "/*]]>*/" (removeAll "/*<![CDATA[*/" (pyStrip raw)))) = some j →
      pyStrip raw ≠ "" → ∀ x ∈ jsonFlat j, x ∈ realtorExtractJsonLd parse blocks) := by
  refine ⟨extractFold_eq_flatMap _ _, extractFold_eq_flatMap _ _, ?_⟩
  intro raw hraw j hj hne x hx
  unfold realtorExtractJsonLd
  rw [extractFold_eq_flatMap]
  refine List.mem_flatMap.mpr ⟨raw, hraw, ?_⟩
  unfold realtorProcessBlock
  rw [if_neg hne]
  dsimp only
  rw [hj]
  exact hx

theorem claim8_parse_isolation_witness :
    RJson.obj [("g", RJson.num 3)] ∈ realtorExtractJsonLd c8parse [c8good, c8block] :=
  (claim8_parse_isolation c8parse [c8good, c8block]).2.2 c8good (List.mem_cons_self _ _)
    (RJson.obj [("g", RJson.num 3)]) rfl (by decide)
    (RJson.obj [("g", RJson.num 3)]) (List.mem_singleton.mpr rfl)

/-- C8 counterexample: on a block of two concatenated well-formed objects the
realtor extractor salvages both by split-and-reparse, while the zillow
extractor drops the block entirely — it attempts no split-and-reparse, against
the claim. -/
theorem claim8_counterexample :
    realtorExtractJsonLd c8parse [c8block] =
      [RJson.obj [("a", RJson.num 1)], RJson.obj [("b", RJson.num 2)]] ∧
    zillowExtractJsonLd c8parse [c8block] = [] :=
  ⟨rfl, rfl⟩

/-! ### C3: discovery order, deduplication, canonicalization -/

theorem dedupInto_append (acc us vs : List String) :
    dedupInto acc (us ++ vs) = dedupInto (dedupInto acc us) vs := by
  unfold dedupInto; rw [List.foldl_append]

theorem dedupInto_extendsAcc (us : List String) : ∀ acc : List String, acc <+: dedupInto acc us := by
  induction us with
  | nil => intro acc; exact List.prefix_refl _
  | cons u t ih =>
    intro acc
    simp only [dedupInto, List.foldl] at *
    have hstep : acc <+: (if acc.contains u = true then acc else acc ++ [u]) := by
      split
      · exact List.prefix_refl _
      · exact List.prefix_append _ _
    exact hstep.trans (ih _)

theorem dedupInto_nodup (us : List String) : ∀ acc : List String, acc.Nodup →
    (∀ x ∈ acc, acc.contains x = true) → (dedupInto acc us).Nodup := by
  induction us with
  | nil => intro acc h _; exact h
  | cons u t ih =>
    intro acc h hc
    simp only [dedupInto, List.foldl] at *
    by_cases hm : acc.contains u
    · rw [if_pos hm]; exact ih acc h hc
    · rw [if_neg hm]
      refine ih _ ?_ ?_
      · have hu : u ∉ acc := fun hin => hm (by simpa using hin)
        simp [List.nodup_append, h, hu]
      · intro x hx
        simpa using hx

theorem take_eq_of_isPre {l m : List String} (h : l <+: m) {n : Nat} (hn : n ≤ l.length) :
    m.take n = l.take n := by
  obtain ⟨t, rfl⟩ := h
  exact List.take_append_of_le_length hn

theorem rcAddList_spec (limit : Nat) :
    ∀ (us found : List String), found.length < limit →
      (rcAddList limit found us).1 = (dedupInto found us).take limit ∧
      ((rcAddList limit found us).2 = true ↔ limit ≤ (dedupInto found us).length) := by
  intro us
  induction us with
  | nil =>
    intro found hf
    refine ⟨?_, ?_⟩
    · show found = (dedupInto found []).take limit
      simp [dedupInto, List.take_of_length_le (le_of_lt hf)]
    · show (false = true) ↔ _
      simp only [dedupInto, List.foldl]
      constructor
      · intro h; exact absurd h (by simp)
      · intro h; omega
  | cons u t ih =>
    intro found hf
    by_cases hc : u ∈ found
    · have hcb : found.contains u = true := by simpa using hc
      have hp : rcAdd limit found u = (found, false) := by
        simp only [rcAdd]
        rw [if_pos hcb]
      have hd : dedupInto found (u :: t) = dedupInto found t := by
        simp only [dedupInto, List.foldl, if_pos hcb]
      simp only [rcAddList, hp]
      rw [hd]
      exact ih found hf
    · have hcb : found.contains u = false := by simpa using hc
      have hd : dedupInto found (u :: t) = dedupInto (found ++ [u]) t := by
        simp only [dedupInto, List.foldl, hcb, Bool.false_eq_true, if_false]
      by_cases hstop : limit ≤ (found ++ [u]).length
      · have hstop' : limit ≤ found.length + 1 := by simpa using hstop
        have hlen : (found ++ [u]).length = limit := by simp; omega
        have hp : rcAdd limit found u = (found ++ [u], true) := by
          simp only [rcAdd]
          rw [if_neg (by simpa using hc)]
          simp only [Prod.mk.injEq, decide_eq_true_eq]
          exact ⟨by simp, by simpa using hstop'⟩
        simp only [rcAddList, hp]
        rw [hd]
        constructor
        · show found ++ [u] = (dedupInto (found ++ [u]) t).take limit
          obtain ⟨suf, hsuf⟩ := dedupInto_extendsAcc t (found ++ [u])
          rw [← hsuf, ← hlen, List.take_left]
        · refine ⟨fun _ => ?_, fun _ => rfl⟩
          calc limit = (found ++ [u]).length := hlen.symm
          _ ≤ (dedupInto (found ++ [u]) t).length := (dedupInto_extendsAcc t _).length_le
      · have hstop' : ¬ limit ≤ found.length + 1 := by simpa using hstop
        have hp : rcAdd limit found u = (found ++ [u], false) := by
          simp only [rcAdd]
          rw [if_neg (by simpa using hc)]
          simp only [Prod.mk.injEq, decide_eq_false_iff_not]
          exact ⟨by simp, by simpa using hstop'⟩
        simp only [rcAddList, hp]
        rw [hd]
        exact ih (found ++ [u]) (by simp; omega)

theorem realtorCollect_characterization (parse : String → Option RJson) (join : String → String)
    (page : RSearchPage) (limit : Nat) (hl : 1 ≤ limit) (hb : blockedSearch page.text = false) :
    realtorCollectFromHtml parse join page limit =
      (dedupFO (rcS1urls join (realtorExtractJsonLd parse page.blocks) ++
        rcS2urls join page.anchors ++ rcS3urls join page.anchors)).take limit := by
  unfold realtorCollectFromHtml
  rw [hb]
  simp only [Bool.false_eq_true, if_false]
  have h0 : ([] : List String).length < limit := by simpa using hl
  obtain ⟨h11, h12⟩ := rcAddList_spec limit
    (rcS1urls join (realtorExtractJsonLd parse page.blocks)) [] h0
  set S1 := rcS1urls join (realtorExtractJsonLd parse page.blocks)
  set S2 := rcS2urls join page.anchors
  set S3 := rcS3urls join page.anchors
  have hD : dedupFO (S1 ++ S2 ++ S3)
      = dedupInto (dedupInto (dedupInto [] S1) S2) S3 := by
    unfold dedupFO
    rw [dedupInto_append, dedupInto_append]
  by_cases hstop1 : (rcAddList limit [] S1).2 = true
  · rw [if_pos hstop1, h11, hD]
    have hle : limit ≤ (dedupInto [] S1).length := h12.mp hstop1
    have hpre : dedupInto [] S1 <+: dedupInto (dedupInto (dedupInto [] S1) S2) S3 :=
      (dedupInto_extendsAcc S2 _).trans (dedupInto_extendsAcc S3 _)
    rw [take_eq_of_isPre hpre (le_trans hle (le_refl _))]
  · rw [if_neg hstop1, h11]
    have hlt : (dedupInto [] S1).length < limit := by
      rcases Nat.lt_or_ge (dedupInto [] S1).length limit with h | h
      · exact h
      · exact absurd (h12.mpr h) hstop1
    rw [List.take_of_length_le (le_of_lt hlt)]
    obtain ⟨h21, h22⟩ := rcAddList_spec limit S2 (dedupInto [] S1) hlt
    rw [h21, hD]
    set D2 := dedupInto (dedupInto [] S1) S2
    by_cases hgate : (D2.take limit).length < limit
    · rw [if_pos hgate]
      have hD2 : D2.length < limit := by
        rw [List.length_take] at hgate; omega
      rw [List.take_of_length_le (le_of_lt hD2)] at hgate ⊢
      obtain ⟨h31, _⟩ := rcAddList_spec limit S3 D2 hD2
      rw [h31, List.take_take, min_self]
    · rw [if_neg hgate]
      have hD2 : limit ≤ D2.length := by
        rw [List.length_take] at hgate; omega
      rw [List.take_take, min_self]
      exact (take_eq_of_isPre (dedupInto_extendsAcc S3 D2) hD2).symm

theorem mem_dedupInto {x : String} : ∀ us acc : List String,
    x ∈ dedupInto acc us → x ∈ acc ∨ x ∈ us := by
  intro us
  induction us with
  | nil => intro acc h; exact Or.inl h
  | cons u t ih =>
    intro acc h
    simp only [dedupInto, List.foldl] at h
    rcases ih _ h with hm | hm
    · by_cases hc : acc.contains u
      · rw [if_pos hc] at hm; exact Or.inl hm
      · rw [if_neg hc] at hm
        rcases List.mem_append.mp hm with h1 | h1
        · exact Or.inl h1
        · exact Or.inr (by simp at h1; simp [h1])
    · exact Or.inr (List.mem_cons_of_mem _ hm)

theorem strFindAt_singleton_none_iff {c : Char} : ∀ l : List Char,
    strFindAt [c] l = none ↔ c ∉ l := by
  intro l
  induction l with
  | nil => simp [strFindAt]
  | cons a t ih =>
    simp only [strFindAt]
    by_cases hca : c = a
    · subst hca
      rw [if_pos (by simp [List.isPrefixOf])]
      constructor
      · intro h; exact absurd h (by simp)
      · intro h; exact absurd (List.mem_cons_self c t) h
    · have hpf : ¬ ([c].isPrefixOf (a :: t) = true) := by
        simp [List.isPrefixOf, beq_eq_false_iff_ne.mpr hca]
      rw [if_neg hpf]
      simp only [Option.map_eq_none']
      rw [ih]
      constructor
      · intro hn hmem
        rcases List.mem_cons.mp hmem with h1 | h1
        · exact hca h1
        · exact hn h1
      · intro hn hmem
        exact hn (List.mem_cons_of_mem _ hmem)

theorem not_mem_take_strFindAt {c : Char} : ∀ (l : List Char) (i : Nat),
    strFindAt [c] l = some i → c ∉ l.take i := by
  intro l
  induction l with
  | nil =>
    intro i h
    simp [strFindAt] at h
  | cons a t ih =>
    intro i h
    simp only [strFindAt] at h
    by_cases hpf : ([c].isPrefixOf (a :: t)) = true
    · rw [if_pos hpf] at h
      cases h
      simp
    · rw [if_neg hpf] at h
      have hca : c ≠ a := by
        intro he
        exact hpf (by subst he; simp [List.isPrefixOf])
      rcases Option.map_eq_some'.mp h with ⟨j, hj, rfl⟩
      intro hmem
      rcases List.mem_cons.mp (by simpa [List.take] using hmem) with h1 | h1
      · exact hca h1
      · exact ih j hj h1

theorem dropWhile_idem (p : Char → Bool) : ∀ l : List Char,
    (l.dropWhile p).dropWhile p = l.dropWhile p := by
  intro l
  induction l with
  | nil => rfl
  | cons a t ih =>
    by_cases hp : p a
    · simp only [List.dropWhile, hp]; exact ih
    · have hp' : p a = false := by simpa using hp
      simp [List.dropWhile, hp']

theorem pyRstrip_idem (ch : Char) (s : String) : pyRstrip ch (pyRstrip ch s) = pyRstrip ch s := by
  unfold pyRstrip
  simp only [List.reverse_reverse]
  rw [dropWhile_idem]

theorem mem_of_mem_pyRstrip {ch : Char} {s : String} {x : Char}
    (h : x ∈ (pyRstrip ch s).data) : x ∈ s.data := by
  unfold pyRstrip at h
  simp only [List.mem_reverse] at h
  have := (List.dropWhile_sublist (l := s.data.reverse) (p := (· = ch))).mem h
  simpa using this

theorem beforeFirst_eq_self_of_not_mem {s : String} (h : '?' ∉ s.data) :
    beforeFirst "?" s = s := by
  unfold beforeFirst
  have hq : (String.data "?") = ['?'] := rfl
  rw [hq, (strFindAt_singleton_none_iff s.data).mpr h]

theorem not_mem_beforeFirst (u : String) : '?' ∉ (beforeFirst "?" u).data := by
  unfold beforeFirst
  have hq : (String.data "?") = ['?'] := rfl
  rw [hq]
  cases hf : strFindAt ['?'] u.data with
  | none => exact (strFindAt_singleton_none_iff u.data).mp hf
  | some i => exact not_mem_take_strFindAt u.data i hf

theorem zCanon_idem (u : String) : zCanon (zCanon u) = zCanon u := by
  unfold zCanon
  have h2 : '?' ∉ (pyRstrip '/' (beforeFirst "?" u)).data :=
    fun hm => not_mem_beforeFirst u (mem_of_mem_pyRstrip hm)
  rw [beforeFirst_eq_self_of_not_mem h2, pyRstrip_idem]

theorem zillowFoundOf_canonical {u : String} {cands : List String}
    (h : u ∈ zillowFoundOf cands) : zCanon u = u := by
  unfold zillowFoundOf dedupFO at h
  rcases mem_dedupInto _ _ h with hm | hm
  · simp at hm
  · obtain ⟨v, _, rfl⟩ := List.mem_map.mp hm
    exact zCanon_idem v

/-- C3 (amended): the realtor discoverer applies no canonicalization — it
deduplicates by the exact joined url, preserving discovery order: its output
is exactly the first-occurrence deduplication of the strategy-1, strategy-2,
strategy-3 candidate streams in that order, cut to the limit, and hence free
of exact duplicates and deterministic in the page content. The zillow
discoverer canonicalizes each candidate (query string split off, trailing
slashes stripped) before inserting into its found set, so every member of
that set is canonical; but the set is unordered, so discovery order is not
preserved there. -/
theorem claim3_discovery_dedup (parse : String → Option RJson) (join : String → String)
    (page : RSearchPage) (limit : Nat) (hl : 1 ≤ limit)
    (hb : blockedSearch page.text = false) :
    realtorCollectFromHtml parse join page limit =
      (dedupFO (rcS1urls join (realtorExtractJsonLd parse page.blocks) ++
        rcS2urls join page.anchors ++ rcS3urls join page.anchors)).take limit ∧
    (realtorCollectFromHtml parse join page limit).Nodup ∧
    (∀ (cands : List String), ∀ u ∈ zillowFoundOf cands, zCanon u = u) := by
  refine ⟨realtorCollect_characterization parse join page limit hl hb, ?_,
    fun cands u hu => zillowFoundOf_canonical hu⟩
  rw [realtorCollect_characterization parse join page limit hl hb]
  exact (dedupInto_nodup _ [] List.nodup_nil (by simp)).sublist (List.take_sublist _ _)

theorem claim3_discovery_dedup_witness :
    realtorCollectFromHtml (fun _ => none) c3join c3page 12 =
      (dedupFO (rcS1urls c3join (realtorExtractJsonLd (fun _ => none) c3page.blocks) ++
        rcS2urls c3join c3page.anchors ++ rcS3urls c3join c3page.anchors)).take 12 ∧
    (realtorCollectFromHtml (fun _ => none) c3join c3page 12).Nodup ∧
    (∀ (cands : List String), ∀ u ∈ zillowFoundOf cands, zCanon u = u) :=
  claim3_discovery_dedup (fun _ => none) c3join c3page 12 (by decide) (by decide)

/-- C3 counterexample: two anchors differing only in their query strings. The
realtor discoverer returns both — two candidates with the same canonical url —
because it deduplicates by the exact url and never canonicalizes, against the
claim that every candidate is canonicalized (query stripped) before insertion
and no two returned candidates share a canonical url. -/
theorem claim3_counterexample :
    realtorCollectFromHtml (fun _ => none) c3join c3page 12 =
      ["https://www.realtor.com/realestateandhomes-detail/h1?a=1",
       "https://www.realtor.com/realestateandhomes-detail/h1?a=2"] ∧
    zCanon "https://www.realtor.com/realestateandhomes-detail/h1?a=1" =
      zCanon "https://www.realtor.com/realestateandhomes-detail/h1?a=2" ∧
    ("https://www.realtor.com/realestateandhomes-detail/h1?a=1" : String) ≠
      "https://www.realtor.com/realestateandhomes-detail/h1?a=2" := by
  refine ⟨rfl, rfl, by decide⟩

/-! ### C5: the email pipeline -/

theorem zSecondaryStep_calls_le_one (page : ZPage) (secondary : String → Option ZAgentPage)
    (parse : String → Option RJson) (emailRe : String → Option String) (st : ZSt) :
    (zSecondaryStep page secondary parse emailRe st).2 ≤ 1 := by
  unfold zSecondaryStep
  repeat' split
  all_goals simp

/-- C5 (amended): the zillow email pipeline runs in the source order — a
mailto anchor on the listing page assigns the email unconditionally
(overwriting even a structured-data value); only while the email is still
falsy the extractor follows an agent/profile link, with at most one secondary
fetch per extraction, and a failed secondary navigation is swallowed leaving
the state unchanged; the agent page is scanned JSON-LD first, then mailto,
then regex; the regex scan of the listing content happens last, only if the
email is still missing. The realtor extractor performs only the guarded
regex scan of its text blob (no mailto scan, no secondary fetch). -/
theorem claim5_email_pipeline :
    (∀ parse emailRe (page : ZPage) secondary url h,
      page.mailtoHref = some h → pyStartsWith "mailto:" h = true → zMailtoEmail h ≠ "" →
      ((zillowExtractListing parse emailRe page secondary url).1).email
        = some (.str (zMailtoEmail h))) ∧
    (∀ parse emailRe (page : ZPage) secondary url,
      (zillowExtractListing parse emailRe page secondary url).2 ≤ 1) ∧
    (∀ parse emailRe (page : ZPage) secondary (st : ZSt) link,
      jsonTruthyO st.email = false → zAgentLink page.anchors = some link →
      secondary (normalizeUrl link) = none →
      zSecondaryStep page secondary parse emailRe st = (st, 1)) ∧
    (∀ parse emailRe (page : ZPage) secondary url,
      page.mailtoHref = none → zAgentLink page.anchors = none →
      ((zillowExtractListing parse emailRe page secondary url).1).email =
        (zListingRegexStep page emailRe
          (zDomPass page ((zillowExtractJsonLd parse page.blocks).foldl zJsonStep
            ⟨none, none, none, none, none⟩))).email) ∧
    (∀ (page : RPage) emailRe (r : RRecord) m,
      hasKey r "agent_email" = false → pyIn "@" page.textBlob = true →
      emailRe page.textBlob = some m →
      (rDomEmailStep page emailRe r).lookup "agent_email" = some (some (.str m))) := by
  refine ⟨?_, ?_, ?_, ?_, ?_⟩
  · intro parse emailRe page secondary url h hm hsw hne
    unfold zillowExtractListing
    dsimp only
    have h1 : ∀ st : ZSt, zMailtoStep page st = { st with email := some (.str (zMailtoEmail h)) } := by
      intro st
      unfold zMailtoStep
      rw [hm]
      dsimp only
      rw [if_pos hsw]
    rw [h1]
    have htr : jsonTruthyO (some (RJson.str (zMailtoEmail h))) = true := by
      simp [jsonTruthyO, RJson.truthy, hne]
    have h2 : zSecondaryStep page secondary parse emailRe
        { zDomPass page ((zillowExtractJsonLd parse page.blocks).foldl zJsonStep
            ⟨none, none, none, none, none⟩) with email := some (.str (zMailtoEmail h)) } =
        ({ zDomPass page ((zillowExtractJsonLd parse page.blocks).foldl zJsonStep
            ⟨none, none, none, none, none⟩) with email := some (.str (zMailtoEmail h)) }, 0) := by
      unfold zSecondaryStep
      rw [if_pos htr]
    rw [h2]
    unfold zListingRegexStep
    rw [if_pos htr]
  · intro parse emailRe page secondary url
    unfold zillowExtractListing
    dsimp only
    exact zSecondaryStep_calls_le_one _ _ _ _ _
  · intro parse emailRe page secondary st link he hl hs
    unfold zSecondaryStep
    rw [if_neg (by simp [he]), hl]
    dsimp only
    rw [hs]
  · intro parse emailRe page secondary url hm ha
    unfold zillowExtractListing
    dsimp only
    have h1 : ∀ st : ZSt, zMailtoStep page st = st := by
      intro st; unfold zMailtoStep; rw [hm]
    rw [h1]
    have h2 : ∀ st : ZSt, zSecondaryStep page secondary parse emailRe st = (st, 0) := by
      intro st
      unfold zSecondaryStep
      split
      · rfl
      · rw [ha]
    rw [h2]
  · intro page emailRe r m hk hin hre
    unfold rDomEmailStep
    rw [hk, hin, hre]
    simp only [Bool.false_eq_true, if_false, if_pos rfl]
    exact lookup_append_self _ (lookup_eq_none_of_hasKey_false hk)

theorem claim5_email_pipeline_witness :
    ((zillowExtractListing (fun _ => none) (fun _ => none) c5wpage (fun _ => none) "u").1).email
      = some (.str (zMailtoEmail "mailto:bob@x.com?subject=hi")) :=
  claim5_email_pipeline.1 (fun _ => none) (fun _ => none) c5wpage (fun _ => none) "u"
    "mailto:bob@x.com?subject=hi" rfl (by decide) (by decide)

/-- C5 counterexample: a listing page with no mailto anchor, an email-shaped
token in its visible text, and an agent profile link whose page carries a
different email. The order stated by the claim (mailto, then regex on the listing text,
then the secondary fetch only if still missing) yields the listing email; the
code follows the agent link before scanning the listing text and returns the
agent-page email instead. -/
theorem claim5_counterexample :
    ((zillowExtractListing (fun _ => none) c5emailRe c5page c5secondary "u").1).email
      = some (.str "jane@agency.com") ∧
    specC5EmailOrder c5page c5secondary c5emailRe none = some (.str "listing@example.com") ∧
    ("jane@agency.com" : String) ≠ "listing@example.com" := by
  refine ⟨rfl, rfl, by decide⟩

/-! ### Orchestration lemmas for C1 and C9 -/

theorem foldl_dedup_extendsAcc (collect : String → List String) (rest : List String) :
    ∀ a : List String, a <+: rest.foldl (fun x s => dedupInto x (collect s)) a := by
  induction rest with
  | nil => intro a; exact List.prefix_refl _
  | cons s t ih => intro a; exact (dedupInto_extendsAcc (collect s) a).trans (ih _)

theorem rInnerAdd_spec (mt : Int) : ∀ us acc : List String, (acc.length : Int) < mt →
    rInnerAdd mt acc us = (dedupInto acc us).take mt.toNat := by
  intro us
  induction us with
  | nil =>
    intro acc h
    show acc = acc.take mt.toNat
    exact (List.take_of_length_le (by omega)).symm
  | cons u t ih =>
    intro acc h
    by_cases hc : u ∈ acc
    · have hcb : acc.contains u = true := by simpa using hc
      have hd : dedupInto acc (u :: t) = dedupInto acc t := by
        simp only [dedupInto, List.foldl, if_pos hcb]
      simp only [rInnerAdd, if_pos hcb]
      rw [if_neg (by omega), hd]
      exact ih acc h
    · have hcb : acc.contains u = false := by simpa using hc
      have hd : dedupInto acc (u :: t) = dedupInto (acc ++ [u]) t := by
        simp only [dedupInto, List.foldl, hcb, Bool.false_eq_true, if_false]
      simp only [rInnerAdd, hcb, Bool.false_eq_true, if_false]
      rw [hd]
      by_cases hcap : mt ≤ ((acc ++ [u]).length : Int)
      · have hlen : ((acc ++ [u]).length : Int) = mt := by simp at hcap ⊢; omega
        rw [if_pos (by omega)]
        obtain ⟨suf, hsuf⟩ := dedupInto_extendsAcc t (acc ++ [u])
        have hlen2 : (acc ++ [u]).length = mt.toNat := by omega
        rw [← hsuf, ← hlen2, List.take_left]
      · rw [if_neg (by omega)]
        exact ih (acc ++ [u]) (by simp at hcap ⊢; omega)

theorem rSeedLoop_char (collect : String → List String) (mt : Int) :
    ∀ seeds acc : List String, (acc.length : Int) < mt →
      rSeedLoop collect mt acc seeds =
        (seeds.foldl (fun a s => dedupInto a (collect s)) acc).take mt.toNat := by
  intro seeds
  induction seeds with
  | nil =>
    intro acc h
    show acc = acc.take mt.toNat
    exact (List.take_of_length_le (by omega)).symm
  | cons s rest ih =>
    intro acc h
    simp only [rSeedLoop, List.foldl]
    rw [rInnerAdd_spec mt _ acc h]
    set D := dedupInto acc (collect s) with hD
    have hlen := List.length_take mt.toNat D
    by_cases hcap : mt ≤ (((D.take mt.toNat).length : Nat) : Int)
    · rw [if_pos hcap]
      have h1 : mt.toNat ≤ D.length := by omega
      exact (take_eq_of_isPre (foldl_dedup_extendsAcc collect rest D) h1).symm
    · rw [if_neg hcap]
      have h2 : (D.length : Int) < mt := by omega
      rw [List.take_of_length_le (by omega : D.length ≤ mt.toNat)]
      exact ih D h2

theorem rExtractLoop_filterMap (extract : String → Option RRecord) (urls : List String) :
    rExtractLoop extract urls =
      urls.filterMap (fun u => (extract u).bind (fun d => if d.isEmpty then none else some d)) := by
  induction urls with
  | nil => rfl
  | cons u t ih =>
    cases hx : extract u with
    | none => simp [rExtractLoop, hx, ih]
    | some d =>
      by_cases hd : d.isEmpty
      · simp [rExtractLoop, hx, hd, ih]
      · simp [rExtractLoop, hx, hd, ih]

theorem rExtractLoop_length_le (extract : String → Option RRecord) (urls : List String) :
    (rExtractLoop extract urls).length ≤ urls.length := by
  induction urls with
  | nil => simp [rExtractLoop]
  | cons u t ih =>
    cases hx : extract u with
    | none => simp only [rExtractLoop, hx]; simp; omega
    | some d =>
      by_cases hd : d.isEmpty
      · simp only [rExtractLoop, hx, hd, if_pos rfl]; simp; omega
      · have hd' : d.isEmpty = false := by simpa using hd
        simp only [rExtractLoop, hx, hd', Bool.false_eq_true, if_false]
        simp; omega

theorem rExtractLoop_length_all (extract : String → Option RRecord) (urls : List String)
    (h : ∀ u ∈ urls, ∃ d, extract u = some d ∧ d.isEmpty = false) :
    (rExtractLoop extract urls).length = urls.length := by
  induction urls with
  | nil => rfl
  | cons u t ih =>
    obtain ⟨d, hx, hd⟩ := h u (List.mem_cons_self _ _)
    simp only [rExtractLoop, hx, hd, Bool.false_eq_true, if_false]
    simp only [List.length_cons]
    rw [ih (fun v hv => h v (List.mem_cons_of_mem _ hv))]

theorem rInnerAdd_nonpos (mt : Int) (hmt : mt ≤ 0) (us : List String) :
    (rInnerAdd mt [] us).length ≤ 1 := by
  cases us with
  | nil => simp [rInnerAdd]
  | cons u t =>
    have hcb : ([] : List String).contains u = false := rfl
    simp only [rInnerAdd, hcb, Bool.false_eq_true, if_false, List.nil_append]
    rw [if_pos (by simp; omega)]
    simp

theorem rSeedLoop_nonpos (collect : String → List String) (mt : Int) (hmt : mt ≤ 0)
    (seeds : List String) : (rSeedLoop collect mt [] seeds).length ≤ 1 := by
  cases seeds with
  | nil => simp [rSeedLoop]
  | cons s rest =>
    simp only [rSeedLoop]
    rw [if_pos (by omega)]
    exact rInnerAdd_nonpos mt hmt (collect s)

theorem pyTake_nonpos (mt : Int) (hmt : mt ≤ 0) (l : List String) (hl : l.length ≤ 1) :
    pyTake mt l = [] := by
  unfold pyTake
  split
  · have h0 : mt = 0 := by omega
    simp [h0]
  · have h0 : l.length - (-mt).toNat = 0 := by omega
    simp [h0]

theorem zInnerAdd_stop (mt : Int) (acc : List String) (hstop : mt ≤ (acc.length : Int)) :
    ∀ us, zInnerAdd mt acc us = acc := by
  intro us
  cases us with
  | nil => rfl
  | cons u t => simp only [zInnerAdd, if_pos hstop]

theorem zInnerAdd_spec (mt : Int) : ∀ us acc : List String, (acc.length : Int) < mt →
    zInnerAdd mt acc us = (dedupInto acc us).take mt.toNat := by
  intro us
  induction us with
  | nil =>
    intro acc h
    show acc = acc.take mt.toNat
    exact (List.take_of_length_le (by omega)).symm
  | cons u t ih =>
    intro acc h
    simp only [zInnerAdd]
    rw [if_neg (by omega)]
    by_cases hc : u ∈ acc
    · have hcb : acc.contains u = true := by simpa using hc
      have hd : dedupInto acc (u :: t) = dedupInto acc t := by
        simp only [dedupInto, List.foldl, if_pos hcb]
      rw [if_pos hcb, hd]
      exact ih acc h
    · have hcb : acc.contains u = false := by simpa using hc
      have hd : dedupInto acc (u :: t) = dedupInto (acc ++ [u]) t := by
        simp only [dedupInto, List.foldl, hcb, Bool.false_eq_true, if_false]
      rw [hcb]
      simp only [Bool.false_eq_true, if_false]
      rw [hd]
      by_cases hcap : mt ≤ ((acc ++ [u]).length : Int)
      · have hlen : ((acc ++ [u]).length : Int) = mt := by simp at hcap ⊢; omega
        rw [zInnerAdd_stop mt (acc ++ [u]) (by omega) t]
        obtain ⟨suf, hsuf⟩ := dedupInto_extendsAcc t (acc ++ [u])
        have hlen2 : (acc ++ [u]).length = mt.toNat := by omega
        rw [← hsuf, ← hlen2, List.take_left]
      · exact ih (acc ++ [u]) (by simp at hcap ⊢; omega)

theorem zSeedLoop_stop (collect : String → List String) (mt : Int) (acc : List String)
    (hstop : mt ≤ (acc.length : Int)) : ∀ seeds, zSeedLoop collect mt acc seeds = acc := by
  intro seeds
  cases seeds with
  | nil => rfl
  | cons s rest => simp only [zSeedLoop, if_pos hstop]

theorem zSeedLoop_char (collect : String → List String) (mt : Int) :
    ∀ seeds acc : List String, (acc.length : Int) < mt →
      zSeedLoop collect mt acc seeds =
        (seeds.foldl (fun a s => dedupInto a (collect s)) acc).take mt.toNat := by
  intro seeds
  induction seeds with
  | nil =>
    intro acc h
    show acc = acc.take mt.toNat
    exact (List.take_of_length_le (by omega)).symm
  | cons s rest ih =>
    intro acc h
    simp only [zSeedLoop, List.foldl]
    rw [if_neg (by omega)]
    rw [zInnerAdd_spec mt _ acc h]
    set D := dedupInto acc (collect s) with hD
    have hlen := List.length_take mt.toNat D
    by_cases hcap : mt ≤ ((D.take mt.toNat).length : Int)
    · rw [zSeedLoop_stop collect mt _ hcap rest]
      have h1 : mt.toNat ≤ D.length := by omega
      exact (take_eq_of_isPre (foldl_dedup_extendsAcc collect rest D) h1).symm
    · have h2 : (D.length : Int) < mt := by omega
      rw [List.take_of_length_le (by omega : D.length ≤ mt.toNat)]
      exact ih D h2

theorem zLeadLoop_length_le (runUrl : String → Option ZLead) (mt : Int) :
    ∀ (us : List String) (acc : List ZLead),
      (zLeadLoop runUrl mt acc us).length ≤ max acc.length mt.toNat := by
  intro us
  induction us with
  | nil => intro acc; simp [zLeadLoop]
  | cons u t ih =>
    intro acc
    simp only [zLeadLoop]
    by_cases hcap : mt ≤ (acc.length : Int)
    · rw [if_pos hcap]; simp
    · rw [if_neg hcap]
      cases hx : runUrl u with
      | none =>
        dsimp only
        exact ih acc
      | some lead =>
        dsimp only
        have h2 := ih (acc ++ [lead])
        have hlen : (acc ++ [lead]).length = acc.length + 1 := by simp
        omega

theorem zLeadLoop_all (runUrl : String → Option ZLead) (mt : Int) (hmt : 0 ≤ mt)
    (hall : ∀ u, (runUrl u).isSome) :
    ∀ (us : List String) (acc : List ZLead), (acc.length : Int) ≤ mt →
      (zLeadLoop runUrl mt acc us).length = min (acc.length + us.length) mt.toNat := by
  intro us
  induction us with
  | nil =>
    intro acc h
    simp only [zLeadLoop, List.length_nil, Nat.add_zero]
    omega
  | cons u t ih =>
    intro acc h
    simp only [zLeadLoop]
    by_cases hcap : mt ≤ (acc.length : Int)
    · rw [if_pos hcap]
      simp only [List.length_cons]
      omega
    · rw [if_neg hcap]
      cases hx : runUrl u with
      | none => exact absurd (congrArg Option.isSome hx) (by simp [hall u])
      | some lead =>
        dsimp only
        rw [ih (acc ++ [lead])
          (by simp only [List.length_append, List.length_cons, List.length_nil]; omega)]
        have harg : (acc ++ [lead]).length + t.length = acc.length + (u :: t).length := by
          simp only [List.length_append, List.length_cons, List.length_nil]
          omega
        rw [harg]

theorem zLeadLoop_none (runUrl : String → Option ZLead) (mt : Int)
    (hnone : ∀ u, runUrl u = none) :
    ∀ (us : List String) (acc : List ZLead), zLeadLoop runUrl mt acc us = acc := by
  intro us
  induction us with
  | nil => intro acc; rfl
  | cons u t ih =>
    intro acc
    simp only [zLeadLoop, hnone u]
    split
    · rfl
    · exact ih acc

/-- C1: the global cap. Both run_scrape orchestrations never return more than
maxTotal records; and when the task of every queued url succeeds and the seeds can
discover at least maxTotal distinct urls, each returns exactly maxTotal
records. -/
theorem claim1_global_cap :
    (∀ (collect : String → List String) (extract : String → Option RRecord)
      (seeds : List String) (mt : Int),
      (realtorRunScrape collect extract seeds mt).length ≤ mt.toNat) ∧
    (∀ (collect : String → List String) (extract : String → Option RRecord)
      (seeds : List String) (mt : Int), 0 ≤ mt →
      (∀ u, ∃ d, extract u = some d ∧ d.isEmpty = false) →
      mt ≤ ((specDiscovered collect seeds).length : Int) →
      ((realtorRunScrape collect extract seeds mt).length : Int) = mt) ∧
    (∀ (collect : String → List String) (runUrl : String → Option ZLead)
      (seeds : List String) (mt : Int),
      (zillowRunScrape collect runUrl seeds mt).length ≤ mt.toNat) ∧
    (∀ (collect : String → List String) (runUrl : String → Option ZLead)
      (seeds : List String) (mt : Int), 0 ≤ mt →
      (∀ u, (runUrl u).isSome) →
      mt ≤ ((specDiscovered collect seeds).length : Int) →
      ((zillowRunScrape collect runUrl seeds mt).length : Int) = mt) := by
  refine ⟨?_, ?_, ?_, ?_⟩
  · intro collect extract seeds mt
    unfold realtorRunScrape
    refine le_trans (rExtractLoop_length_le _ _) ?_
    by_cases hmt : 0 ≤ mt
    · unfold pyTake
      rw [if_pos hmt]
      simp [List.length_take]
    · have h1 := rSeedLoop_nonpos collect mt (by omega) seeds
      rw [pyTake_nonpos mt (by omega) _ h1]
      simp
  · intro collect extract seeds mt hmt hall hdisc
    rcases eq_or_lt_of_le hmt with h0 | h0
    · unfold realtorRunScrape
      rw [← h0]
      have h1 : pyTake 0 (rSeedLoop collect 0 [] seeds) = [] := by
        unfold pyTake
        rw [if_pos le_rfl]
        simp
      rw [h1]
      simp [rExtractLoop]
    · unfold realtorRunScrape
      rw [rSeedLoop_char collect mt seeds [] (by simpa using h0)]
      have hurls : pyTake mt ((specDiscovered collect seeds).take mt.toNat) =
          (specDiscovered collect seeds).take mt.toNat := by
        unfold pyTake
        rw [if_pos hmt, List.take_take, min_self]
      rw [show (List.foldl (fun a s => dedupInto a (collect s)) [] seeds)
            = specDiscovered collect seeds from rfl, hurls]
      rw [rExtractLoop_length_all extract _ (fun u _ => hall u)]
      rw [List.length_take]
      omega
  · intro collect runUrl seeds mt
    unfold zillowRunScrape
    have := zLeadLoop_length_le runUrl mt (zSeedLoop collect mt [] seeds) []
    simpa using this
  · intro collect runUrl seeds mt hmt hall hdisc
    rcases eq_or_lt_of_le hmt with h0 | h0
    · unfold zillowRunScrape
      rw [← h0]
      have h1 : zSeedLoop collect 0 [] seeds = [] := by
        cases seeds with
        | nil => rfl
        | cons s rest => simp only [zSeedLoop]; rw [if_pos (by simp)]
      rw [h1]
      simp [zLeadLoop]
    · unfold zillowRunScrape
      rw [zSeedLoop_char collect mt seeds [] (by simpa using h0)]
      rw [zLeadLoop_all runUrl mt hmt hall _ [] (by simpa using hmt)]
      rw [show (List.foldl (fun a s => dedupInto a (collect s)) [] seeds)
            = specDiscovered collect seeds from rfl]
      rw [List.length_take]
      simp only [List.length_nil, Nat.zero_add]
      omega

theorem claim1_global_cap_witness :
    (realtorRunScrape c1collect c1extract ["s1"] 2).length ≤ (2 : Int).toNat ∧
    ((realtorRunScrape c1collect c1extract ["s1"] 2).length : Int) = 2 ∧
    ((zillowRunScrape c1collect c1runUrl ["s1"] 2).length : Int) = 2 :=
  ⟨claim1_global_cap.1 c1collect c1extract ["s1"] 2,
   claim1_global_cap.2.1 c1collect c1extract ["s1"] 2 (by decide)
     (fun u => ⟨c1rec u, rfl, rfl⟩) (by decide),
   claim1_global_cap.2.2.2 c1collect c1runUrl ["s1"] 2 (by decide)
     (fun u => rfl) (by decide)⟩

/-- C9 (amended): run_scrape never throws for partial failures — every
per-task failure contributes zero records while the other tasks proceed, so
the run returns exactly the successful records of the queued urls, in queue
order; the run returns only that list (no aggregate counters exist in the
return value), and a non-positive maxTotal is not run-fatal: it yields an
empty result rather than raising. -/
theorem claim9_failure_absorption :
    (∀ (collect : String → List String) (extract : String → Option RRecord)
      (seeds : List String) (mt : Int),
      realtorRunScrape collect extract seeds mt =
        (pyTake mt (rSeedLoop collect mt [] seeds)).filterMap
          (fun u => (extract u).bind (fun d => if d.isEmpty then none else some d))) ∧
    (∀ (collect : String → List String) (extract : String → Option RRecord)
      (seeds : List String) (mt : Int), mt ≤ 0 →
      realtorRunScrape collect extract seeds mt = []) ∧
    (∀ (collect : String → List String) (runUrl : String → Option ZLead)
      (seeds : List String) (mt : Int), (∀ u, runUrl u = none) →
      zillowRunScrape collect runUrl seeds mt = []) := by
  refine ⟨?_, ?_, ?_⟩
  · intro collect extract seeds mt
    unfold realtorRunScrape
    exact rExtractLoop_filterMap extract _
  · intro collect extract seeds mt hmt
    unfold realtorRunScrape
    rw [pyTake_nonpos mt hmt _ (rSeedLoop_nonpos collect mt hmt seeds)]
    rfl
  · intro collect runUrl seeds mt hnone
    unfold zillowRunScrape
    exact zLeadLoop_none runUrl mt hnone _ []

theorem claim9_failure_absorption_witness :
    realtorRunScrape c9collectB c9extract ["s"] 5 =
      (pyTake 5 (rSeedLoop c9collectB 5 [] ["s"])).filterMap
        (fun u => (c9extract u).bind (fun d => if d.isEmpty then none else some d)) ∧
    realtorRunScrape c9collectA c9extract ["s"] (-1) = [] :=
  ⟨claim9_failure_absorption.1 c9collectB c9extract ["s"] 5,
   claim9_failure_absorption.2.1 c9collectA c9extract ["s"] (-1) (by decide)⟩

/-- C9 counterexample: a run in which the first queued task fails returns
exactly the same bare list of records as a run with no failing task at all —
the return value carries no attempted / succeeded / blocked / failed
counters; and a run with maxTotal = -1 returns the empty list instead of
treating the non-positive cap as a run-fatal configuration error. -/
theorem claim9_counterexample :
    realtorRunScrape c9collectA c9extract ["s"] 5 = [c9rec] ∧
    realtorRunScrape c9collectB c9extract ["s"] 5 = [c9rec] ∧
    realtorRunScrape c9collectB c9extract ["s"] (-1) = [] := by
  refine ⟨rfl, rfl, rfl⟩

end Scrape

